import Mathlib

/-!
Thread tools (`src/epeios/tht.h`): locker, locker handler, blocker.

A shallow embedding of the classes `rCore_`, `rLocker`, `rLockerHandler` and
`rBlocker` of namespace `tht`, and theorems about them.

Conventions of the embedding.

* A member function becomes a function from the object's state to a `Step`:
  how the call ended (returned, raised an error, or left the calling thread
  suspended inside `mtx::Lock`), the state at that point, and the list of
  calls made to the mutex library on the way.
* `GetTID()` is the argument `TID` of every function that reads it.
* `qRFwk()`, `qRLmt()` and `qRGnr()` raise: nothing after them in the function
  is executed.
* The counter is an unsigned integer of `E.w` bits, a natural number with the
  wrap-around written out.
-/

namespace tht

/-- Thread identifiers (`sThreadID`, `sTID`). -/
abbrev sTID := Nat

/-- The constant `Undefined`, that is `THT_UNDEFINED_THREAD_ID`. -/
def Undefined : sTID := 0

/-- The three kinds of error the header raises: `qRFwk`, `qRLmt`, `qRGnr`. -/
inductive Error where
  | Fwk
  | Lmt
  | Gnr
  deriving DecidableEq, Repr

/-- What the header takes from its includes and this development leaves free:
the width in bits of `bso::sUInt` (at least one bit), and whether
`mtx::Unlock` raises on a mutex that is not locked or lets it pass. -/
structure Env where
  w : Nat
  w_pos : 0 < w
  strictUnlock : Bool

/-- How a call ended. `blocked`: the calling thread is suspended inside
`mtx::Lock` on a mutex that is locked. -/
inductive Result (α : Type) where
  | ok (a : α)
  | raised (e : Error)
  | blocked
  deriving DecidableEq, Repr

/-- The outcome of a call: how it ended, the state then, and the calls made to
the mutex library, oldest first. -/
structure Step (κ σ α : Type) where
  res : Result α
  st : σ
  calls : List κ
  deriving DecidableEq, Repr

namespace Step

variable {κ κ2 σ τ α β : Type}

/-- Normal return without any call to the mutex library. -/
def ret (s : σ) (a : α) : Step κ σ α := ⟨.ok a, s, []⟩

/-- An error raised in state `s`. -/
def raise (e : Error) (s : σ) : Step κ σ α := ⟨.raised e, s, []⟩

/-- Sequencing: the rest of the function runs only when the first part
returned. -/
def bind (r : Step κ σ α) (f : σ → α → Step κ σ β) : Step κ σ β :=
  match r.res with
  | .ok a => ⟨(f r.st a).res, (f r.st a).st, r.calls ++ (f r.st a).calls⟩
  | .raised e => ⟨.raised e, r.st, r.calls⟩
  | .blocked => ⟨.blocked, r.st, r.calls⟩

/-- A call on a member seen from the enclosing object. -/
def lift (put : τ → σ) (tag : κ → κ2) (r : Step κ τ α) : Step κ2 σ α :=
  ⟨r.res, put r.st, r.calls.map tag⟩

/-- Leaving a scope: the destructors run when the body returned and when it
raised; the first error is the one that propagates. A suspended thread has not
left the scope. -/
def atExit (r : Step κ σ α) (dtor : σ → Step κ σ Unit) : Step κ σ α :=
  match r.res with
  | .blocked => r
  | .raised e => ⟨.raised e, (dtor r.st).st, r.calls ++ (dtor r.st).calls⟩
  | .ok a =>
    ⟨match (dtor r.st).res with
      | .ok _ => .ok a
      | .raised e => .raised e
      | .blocked => .blocked,
     (dtor r.st).st, r.calls ++ (dtor r.st).calls⟩

end Step

/-! ## The mutex library -/

namespace mtx

/-- Modelled from the spec: `mtx.h` is not part of the sources. The object a
handler designates is a raw, non recursive mutex: locked or not. -/
structure Mutex where
  locked : Bool
  deriving DecidableEq, Repr

/-- The calls the header makes to the mutex library. -/
inductive Call where
  | Create
  | Delete
  | IsLocked
  | TryToLock
  | Lock
  | Unlock
  deriving DecidableEq, Repr

/-- Modelled from the spec: `mtx::Create` returns a new mutex, not locked. -/
def Create : Mutex := ⟨false⟩

/-- Modelled from the spec: `mtx::IsLocked`. -/
def IsLocked (m : Mutex) : Step Call Mutex Bool := ⟨.ok m.locked, m, [.IsLocked]⟩

/-- Modelled from the spec: `mtx::TryToLock` locks a free mutex and reports
whether it did. -/
def TryToLock (m : Mutex) : Step Call Mutex Bool :=
  if m.locked then ⟨.ok false, m, [.TryToLock]⟩ else ⟨.ok true, ⟨true⟩, [.TryToLock]⟩

/-- Modelled from the spec: `mtx::Lock` locks a free mutex; on a locked one the
caller is suspended (whoever locked it: the mutex is not recursive). -/
def Lock (m : Mutex) : Step Call Mutex Unit :=
  if m.locked then ⟨.blocked, m, [.Lock]⟩ else ⟨.ok (), ⟨true⟩, [.Lock]⟩

/-- Modelled from the spec: `mtx::Unlock` releases a locked mutex. On a mutex
that is not locked it raises or does nothing, as `E.strictUnlock` says. -/
def Unlock (E : Env) (m : Mutex) : Step Call Mutex Unit :=
  if m.locked then ⟨.ok (), ⟨false⟩, [.Unlock]⟩
  else if E.strictUnlock then ⟨.raised .Fwk, m, [.Unlock]⟩
  else ⟨.ok (), m, [.Unlock]⟩

end mtx

/-! ## `rCore_` -/

/-- Class `rCore_`: the handler `Mutex_` (`none` is `mtx::UndefinedHandler`,
`some m` a handler whose mutex is in state `m`) and the public `ThreadID`. -/
structure rCore_ where
  Mutex_ : Option mtx.Mutex
  ThreadID : sTID
  deriving DecidableEq, Repr

namespace rCore_

/-- Member function `Release_`: deletes the mutex when there is one, then forgets the handler. -/
def Release_ (c : rCore_) : Step mtx.Call rCore_ Unit :=
  match c.Mutex_ with
  | some _ => ⟨.ok (), { c with Mutex_ := none }, [.Delete]⟩
  | none => ⟨.ok (), { c with Mutex_ := none }, []⟩

/-- Member function `Test_`: raises `qRFwk` when the handler is undefined. -/
def Test_ (c : rCore_) : Step mtx.Call rCore_ Unit :=
  if c.Mutex_ = none then .raise .Fwk c else .ret c ()

/-- Member function `reset( P )`. -/
def reset (P : Bool) (c : rCore_) : Step mtx.Call rCore_ Unit :=
  (if P then c.Release_ else .ret c ()).bind fun c _ =>
    .ret { c with Mutex_ := none, ThreadID := Undefined } ()

/-- The state the constructor leaves (`qCDTOR`: the constructor is
`reset( false )`). -/
def ctor : rCore_ := ⟨none, Undefined⟩

/-- Member function `Init`. -/
def Init (c : rCore_) : Step mtx.Call rCore_ Unit :=
  c.Release_.bind fun c _ =>
    ⟨.ok (), { c with Mutex_ := some mtx.Create, ThreadID := Undefined }, [.Create]⟩

/-- A call of the mutex library on the mutex `Mutex_` designates. With an
undefined handler (excluded by `Test_` wherever the header tests) the library
is taken to raise. -/
def onMutex {α : Type} (f : mtx.Mutex → Step mtx.Call mtx.Mutex α) (c : rCore_) :
    Step mtx.Call rCore_ α :=
  match c.Mutex_ with
  | some m => (f m).lift (fun m2 => { c with Mutex_ := some m2 }) id
  | none => .raise .Fwk c

/-- Member function `IsLocked`. -/
def IsLocked (c : rCore_) : Step mtx.Call rCore_ Bool :=
  c.Test_.bind fun c _ => c.onMutex mtx.IsLocked

/-- Member function `TryToLock`. -/
def TryToLock (c : rCore_) : Step mtx.Call rCore_ Bool :=
  c.Test_.bind fun c _ => c.onMutex mtx.TryToLock

/-- Member function `Lock`. -/
def Lock (c : rCore_) : Step mtx.Call rCore_ Unit :=
  c.Test_.bind fun c _ => c.onMutex mtx.Lock

/-- Member function `Unlock`. -/
def Unlock (E : Env) (c : rCore_) : Step mtx.Call rCore_ Unit :=
  c.Test_.bind fun c _ => c.onMutex (mtx.Unlock E)

/-- Member function `UnlockIfLocked`: no `Test_` here; it returns `true` when
the mutex was locked, and has then released it. -/
def UnlockIfLocked (E : Env) (c : rCore_) : Step mtx.Call rCore_ Bool :=
  (c.onMutex mtx.IsLocked).bind fun c l =>
    if l then (c.onMutex (mtx.Unlock E)).bind fun c _ => .ret c true
    else .ret c false

end rCore_

/-! ## `rLocker` -/

/-- Constant `CounterMax_`, that is `bso::UIntMax`: the largest value of `sCounter_`. -/
def CounterMax_ (E : Env) : Nat := 2 ^ E.w - 1

/-- Class `rLocker`. -/
structure rLocker where
  Core_ : rCore_
  Counter_ : Nat
  deriving DecidableEq, Repr

namespace rLocker

/-- A call on the member `Core_`. -/
def onCore {α : Type} (f : rCore_ → Step mtx.Call rCore_ α) (l : rLocker) :
    Step mtx.Call rLocker α :=
  (f l.Core_).lift (fun c => { l with Core_ := c }) id

/-- Member function `reset( P )`. -/
def reset (P : Bool) (l : rLocker) : Step mtx.Call rLocker Unit :=
  (l.onCore (rCore_.reset P)).bind fun l _ => .ret { l with Counter_ := 0 } ()

/-- The state the constructor leaves. -/
def ctor : rLocker := ⟨rCore_.ctor, 0⟩

/-- Member function `Init`. -/
def Init (l : rLocker) : Step mtx.Call rLocker Unit :=
  (l.onCore rCore_.Init).bind fun l _ => .ret { l with Counter_ := 0 } ()

/-- Member function `IsLocked`. -/
def IsLocked (l : rLocker) : Step mtx.Call rLocker Bool :=
  l.onCore rCore_.IsLocked

/-- Member function `Lock`, called by thread `TID`. -/
def Lock (E : Env) (TID : sTID) (l : rLocker) : Step mtx.Call rLocker Unit :=
  (if l.Core_.ThreadID ≠ TID then
      (l.onCore rCore_.Lock).bind fun l _ =>
        if l.Core_.ThreadID = Undefined then
          .ret { l with Core_ := { l.Core_ with ThreadID := TID } } ()
        else .raise .Fwk l
    else .ret l ()).bind fun l _ =>
  if l.Counter_ = CounterMax_ E then .raise .Lmt l
  else .ret { l with Counter_ := (l.Counter_ + 1) % 2 ^ E.w } ()

/-- Member function `Unlock`, called by thread `TID`. -/
def Unlock (E : Env) (TID : sTID) (l : rLocker) : Step mtx.Call rLocker Unit :=
  (if l.Core_.ThreadID = TID then
      Step.ret { l with Counter_ := (l.Counter_ + 2 ^ E.w - 1) % 2 ^ E.w } ()
    else if l.Core_.ThreadID = Undefined then Step.raise .Fwk l
    else Step.raise .Fwk l).bind fun l _ =>
  if l.Counter_ = 0 then
    { l with Core_ := { l.Core_ with ThreadID := Undefined } }.onCore (rCore_.Unlock E)
  else .ret l ()

end rLocker

/-! ## `rLockerHandler` -/

/-- Class `rLockerHandler`. The pointer `Locker_` is `true` when it designates
the locker the handler is used with and `false` when it is null: the
development follows one handler together with one locker. -/
structure rLockerHandler where
  Locker_ : Bool
  Locked_ : Bool
  deriving DecidableEq, Repr

/-- A handler together with the locker its pointer designates. -/
structure Guarded where
  H : rLockerHandler
  L : rLocker
  deriving DecidableEq, Repr

namespace rLockerHandler

/-- Accessor `L_()` declared by `qRMV`, followed by a call on the locker it
returns: it raises `qRFwk` on a null pointer. -/
def L_ {α : Type} (f : rLocker → Step mtx.Call rLocker α) (g : Guarded) :
    Step mtx.Call Guarded α :=
  if g.H.Locker_ then (f g.L).lift (fun l => { g with L := l }) id
  else .raise .Fwk g

/-- The state the constructor leaves (`reset( false )`). -/
def ctor : rLockerHandler := ⟨false, false⟩

/-- Member function `reset( P )`; `tol::reset( P, Locker_, Locked_ )` sets the
pointer to null and the flag to false. -/
def reset (E : Env) (TID : sTID) (P : Bool) (g : Guarded) : Step mtx.Call Guarded Unit :=
  (if P then
      if g.H.Locked_ then L_ (rLocker.Unlock E TID) g else Step.ret g ()
    else Step.ret g ()).bind fun g _ =>
  .ret { g with H := { Locker_ := false, Locked_ := false } } ()

/-- Member function `Lock`. -/
def Lock (E : Env) (TID : sTID) (g : Guarded) : Step mtx.Call Guarded Unit :=
  (if !g.H.Locked_ then L_ (rLocker.Lock E TID) g else Step.ret g ()).bind fun g _ =>
  .ret { g with H := { g.H with Locked_ := true } } ()

/-- Member function `Unlock`. -/
def Unlock (E : Env) (TID : sTID) (g : Guarded) : Step mtx.Call Guarded Unit :=
  (if !g.H.Locked_ then Step.raise .Gnr g else Step.ret g ()).bind fun g _ =>
  (L_ (rLocker.Unlock E TID) g).bind fun g _ =>
  .ret { g with H := { g.H with Locked_ := false } } ()

/-- Member function `Init( Locker )`, for the locker of `g`. -/
def Init (E : Env) (TID : sTID) (g : Guarded) : Step mtx.Call Guarded Unit :=
  (reset E TID true g).bind fun g _ =>
  Lock E TID { g with H := { g.H with Locker_ := true } }

end rLockerHandler

/-! ## `rBlocker` -/

/-- Class `rBlocker`: the locker `Locker_` and the core `Core_`. -/
structure rBlocker where
  Locker_ : rLocker
  Core_ : rCore_
  deriving DecidableEq, Repr

/-- Which of the two mutexes of a blocker a call is made on: the one of
`Locker_` or the one of `Core_`. -/
inductive Part where
  | gate
  | signal
  deriving DecidableEq, Repr

/-- The state inside `Wait` and `Unblock`: the local handler `Locker` and the
blocker. -/
structure Frame where
  Locker : rLockerHandler
  B : rBlocker
  deriving DecidableEq, Repr

namespace rBlocker

/-- A call on the member `Locker_`. -/
def onLocker {α : Type} (f : rLocker → Step mtx.Call rLocker α) (b : rBlocker) :
    Step (Part × mtx.Call) rBlocker α :=
  (f b.Locker_).lift (fun l => { b with Locker_ := l }) (fun c => (Part.gate, c))

/-- A call on the member `Core_`. -/
def onCore {α : Type} (f : rCore_ → Step mtx.Call rCore_ α) (b : rBlocker) :
    Step (Part × mtx.Call) rBlocker α :=
  (f b.Core_).lift (fun c => { b with Core_ := c }) (fun c => (Part.signal, c))

/-- A call on the local handler `Locker`, which designates `Locker_`. -/
def onHandler {α : Type} (f : Guarded → Step mtx.Call Guarded α) (fr : Frame) :
    Step (Part × mtx.Call) Frame α :=
  (f ⟨fr.Locker, fr.B.Locker_⟩).lift
    (fun g => ⟨g.H, { fr.B with Locker_ := g.L }⟩) (fun c => (Part.gate, c))

/-- A call on the member `Core_` from inside `Wait` or `Unblock`. -/
def inFrame {α : Type} (f : rBlocker → Step (Part × mtx.Call) rBlocker α) (fr : Frame) :
    Step (Part × mtx.Call) Frame α :=
  (f fr.B).lift (fun b => { fr with B := b }) id

/-- Member function `reset( P )`: `tol::reset( P, Locker_, Core_ )` resets both
members. -/
def reset (P : Bool) (b : rBlocker) : Step (Part × mtx.Call) rBlocker Unit :=
  (b.onLocker (rLocker.reset P)).bind fun b _ => b.onCore (rCore_.reset P)

/-- The state the constructor leaves. -/
def ctor : rBlocker := ⟨rLocker.ctor, rCore_.ctor⟩

/-- Member function `Init( SkipPrefetching )`, called by thread `TID`:
`tol::Init( Locker_, Core_ )` initialises both members. -/
def Init (TID : sTID) (SkipPrefetching : Bool) (b : rBlocker) :
    Step (Part × mtx.Call) rBlocker Unit :=
  (b.onLocker rLocker.Init).bind fun b _ =>
  (b.onCore rCore_.Init).bind fun b _ =>
  if SkipPrefetching then
    .ret { b with Core_ := { b.Core_ with ThreadID := Undefined } } ()
  else
    (b.onCore rCore_.Lock).bind fun b _ =>
    .ret { b with Core_ := { b.Core_ with ThreadID := TID } } ()

/-- The first part of the body of `Wait`, up to `Locker.Unlock()`. -/
def WaitArm (E : Env) (TID : sTID) (IgnoreTarget : Bool) (fr : Frame) :
    Step (Part × mtx.Call) Frame Unit :=
  (onHandler (rLockerHandler.Init E TID) fr).bind fun fr _ =>
  (if fr.B.Core_.ThreadID = Undefined then
      (inFrame (onCore rCore_.Lock) fr).bind fun fr _ =>
      Step.ret { fr with B := { fr.B with Core_ := { fr.B.Core_ with ThreadID := TID } } } ()
    else if !IgnoreTarget && fr.B.Core_.ThreadID ≠ TID then Step.raise .Fwk fr
    else Step.ret fr ()).bind fun fr _ =>
  onHandler (rLockerHandler.Unlock E TID) fr

/-- The rest of the body of `Wait`, from the second `Core_.Lock()` on. -/
def WaitResume (E : Env) (TID : sTID) (fr : Frame) : Step (Part × mtx.Call) Frame Unit :=
  (inFrame (onCore rCore_.Lock) fr).bind fun fr _ =>
  (onHandler (rLockerHandler.Lock E TID) fr).bind fun fr _ =>
  inFrame (onCore (rCore_.Unlock E))
    { fr with B := { fr.B with Core_ := { fr.B.Core_ with ThreadID := Undefined } } }

/-- The destructor of the local handler `Locker`, run on leaving `Wait` or
`Unblock`. -/
def scopeExit (E : Env) (TID : sTID) (fr : Frame) : Step (Part × mtx.Call) Frame Unit :=
  onHandler (rLockerHandler.reset E TID true) fr

/-- The end of `Wait` for a thread that was suspended at the second
`Core_.Lock()` with frame `fr`: the rest of the body, then the destructor. -/
def WaitFinish (E : Env) (TID : sTID) (fr : Frame) : Step (Part × mtx.Call) rBlocker Unit :=
  ((WaitResume E TID fr).atExit (scopeExit E TID)).lift Frame.B id

/-- Member function `Wait( IgnoreTarget )`, called by thread `TID`. -/
def Wait (E : Env) (TID : sTID) (IgnoreTarget : Bool) (b : rBlocker) :
    Step (Part × mtx.Call) rBlocker Unit :=
  (((WaitArm E TID IgnoreTarget ⟨rLockerHandler.ctor, b⟩).bind fun fr _ =>
      WaitResume E TID fr).atExit (scopeExit E TID)).lift Frame.B id

/-- The body of `Unblock`. -/
def UnblockBody (E : Env) (TID : sTID) (IgnoreTarget : Bool) (fr : Frame) :
    Step (Part × mtx.Call) Frame Unit :=
  (onHandler (rLockerHandler.Init E TID) fr).bind fun fr _ =>
  (if !IgnoreTarget && fr.B.Core_.ThreadID = TID then Step.raise .Fwk fr
    else Step.ret fr ()).bind fun fr _ =>
  if fr.B.Core_.ThreadID ≠ Undefined then inFrame (onCore (rCore_.Unlock E)) fr
  else .ret fr ()

/-- Member function `Unblock( IgnoreTarget )`, called by thread `TID`. -/
def Unblock (E : Env) (TID : sTID) (IgnoreTarget : Bool) (b : rBlocker) :
    Step (Part × mtx.Call) rBlocker Unit :=
  ((UnblockBody E TID IgnoreTarget ⟨rLockerHandler.ctor, b⟩).atExit
    (scopeExit E TID)).lift Frame.B id

end rBlocker

/-! ## Sequences of calls and invariants -/

namespace rLocker

/-- An initialised locker nobody holds: mutex created and not locked, no
owner, counter at zero. -/
def free : rLocker := ⟨⟨some ⟨false⟩, Undefined⟩, 0⟩

/-- An initialised locker thread `T` holds `n` times. -/
def held (T : sTID) (n : Nat) : rLocker := ⟨⟨some ⟨true⟩, T⟩, n⟩

/-- An initialised locker with `d` pending locks of thread `T`. -/
def pending (T : sTID) (d : Nat) : rLocker := if d = 0 then free else held T d

/-- The predicate on counter and owner: the counter is positive exactly when
an owner is recorded, and it is at most `CounterMax_`. -/
def CounterInv (E : Env) (l : rLocker) : Prop :=
  (0 < l.Counter_ ↔ l.Core_.ThreadID ≠ Undefined) ∧ l.Counter_ ≤ CounterMax_ E

instance (E : Env) (l : rLocker) : Decidable (CounterInv E l) := by
  unfold CounterInv
  infer_instance

end rLocker

/-- The two calls a thread makes on a locker. -/
inductive LockerCall where
  | Lock
  | Unlock
  deriving DecidableEq, Repr

namespace rLocker

/-- One call by thread `TID`. -/
def call (E : Env) (TID : sTID) : LockerCall → rLocker → Step mtx.Call rLocker Unit
  | .Lock => Lock E TID
  | .Unlock => Unlock E TID

/-- A sequence of calls by thread `TID`, one after the other; it stops at the
first call that does not return. -/
def run (E : Env) (TID : sTID) : List LockerCall → rLocker → Step mtx.Call rLocker Unit
  | [], l => .ret l ()
  | c :: cs, l => (call E TID c l).bind fun l _ => run E TID cs l

end rLocker

/-- The two calls made on a handler inside its scope. -/
inductive GuardCall where
  | Lock
  | Unlock
  deriving DecidableEq, Repr

namespace rLockerHandler

/-- One call on the handler by thread `TID`. -/
def call (E : Env) (TID : sTID) : GuardCall → Guarded → Step mtx.Call Guarded Unit
  | .Lock => Lock E TID
  | .Unlock => Unlock E TID

/-- The calls `cs` made one after the other on the handler by thread `TID`.
An error raised by a call is caught and the next call is made in the state
the error left; a call that suspends the thread ends the sequence. -/
def runAll (E : Env) (TID : sTID) : List GuardCall → Guarded → Step mtx.Call Guarded Unit
  | [], g => .ret g ()
  | c :: cs, g =>
    match (call E TID c g).res with
    | .blocked => call E TID c g
    | _ =>
      ⟨(runAll E TID cs (call E TID c g).st).res, (runAll E TID cs (call E TID c g).st).st,
        (call E TID c g).calls ++ (runAll E TID cs (call E TID c g).st).calls⟩

end rLockerHandler

namespace rBlocker

/-- The state UNARMED of an initialised blocker: the mutex of `Core_` is not
locked, no waiting thread is recorded, and the locker `Locker_` is free. -/
def unarmed : rBlocker := ⟨rLocker.free, ⟨some ⟨false⟩, Undefined⟩⟩

/-- The state ARMED in the name of thread `A`: the mutex of `Core_` is locked
and `A` is the recorded waiting thread; the locker `Locker_` is free. -/
def armed (A : sTID) : rBlocker := ⟨rLocker.free, ⟨some ⟨true⟩, A⟩⟩

/-- The state between an `Unblock` and the end of the `Wait` it releases: the
mutex of `Core_` is not locked and `A` is still the recorded waiting thread. -/
def released (A : sTID) : rBlocker := ⟨rLocker.free, ⟨some ⟨false⟩, A⟩⟩

/-- The calls made on the mutex of `Core_`, in order. -/
def signalCalls (cs : List (Part × mtx.Call)) : List mtx.Call :=
  (cs.filter fun c => c.1 = Part.signal).map Prod.snd

/-- The invariant of the blocker on `Core_`: its mutex is locked exactly when a
waiting thread is recorded. -/
def SignalInv (c : rCore_) : Prop :=
  c.Mutex_ = some ⟨true⟩ ↔ c.ThreadID ≠ Undefined

instance (c : rCore_) : Decidable (SignalInv c) := by
  unfold SignalInv
  infer_instance

/-- One direction of the invariant: when the mutex of `Core_` is locked, a
waiting thread is recorded. -/
def LockedHasWaiter (c : rCore_) : Prop :=
  c.Mutex_ = some ⟨true⟩ → c.ThreadID ≠ Undefined

instance (c : rCore_) : Decidable (LockedHasWaiter c) := by
  unfold LockedHasWaiter
  infer_instance

end rBlocker

/-! ## Further definitions for the locker and the handler -/

namespace rLocker

/-- The rest of `Lock` for a caller that is not the recorded owner, from
`Core_.Lock()` on: what a call suspended in `Core_.Lock()` does once the mutex
is free. -/
def LockAcquire (E : Env) (TID : sTID) (l : rLocker) : Step mtx.Call rLocker Unit :=
  ((l.onCore rCore_.Lock).bind fun l _ =>
      if l.Core_.ThreadID = Undefined then
        Step.ret { l with Core_ := { l.Core_ with ThreadID := TID } } ()
      else Step.raise .Fwk l).bind fun l _ =>
  if l.Counter_ = CounterMax_ E then .raise .Lmt l
  else .ret { l with Counter_ := (l.Counter_ + 1) % 2 ^ E.w } ()

/-- The invariant of the locker on owner, mutex and counter: a recorded owner
implies a locked mutex, and the counter is positive exactly when an owner is
recorded. -/
def LockInv (l : rLocker) : Prop :=
  (l.Core_.ThreadID ≠ Undefined → l.Core_.Mutex_ = some ⟨true⟩) ∧
    (0 < l.Counter_ ↔ l.Core_.ThreadID ≠ Undefined)

instance (l : rLocker) : Decidable (LockInv l) := by
  unfold LockInv
  infer_instance

end rLocker

/-- The three calls made on a handler after `Init`; `reset` carries its
argument `P`, true by default in the header. -/
inductive HandlerCall where
  | Lock
  | Unlock
  | reset (P : Bool)
  deriving DecidableEq, Repr

namespace rLockerHandler

/-- One call on the handler by thread `TID`. -/
def step (E : Env) (TID : sTID) : HandlerCall → Guarded → Step mtx.Call Guarded Unit
  | .Lock => Lock E TID
  | .Unlock => Unlock E TID
  | .reset P => reset E TID P

/-- The calls `cs` made one after the other on the handler by thread `TID`.
An error raised by a call is caught and the next call is made in the state
the error left; a call that suspends the thread ends the sequence. -/
def runCalls (E : Env) (TID : sTID) : List HandlerCall → Guarded → Step mtx.Call Guarded Unit
  | [], g => .ret g ()
  | c :: cs, g =>
    match (step E TID c g).res with
    | .blocked => step E TID c g
    | _ =>
      ⟨(runCalls E TID cs (step E TID c g).st).res, (runCalls E TID cs (step E TID c g).st).st,
        (step E TID c g).calls ++ (runCalls E TID cs (step E TID c g).st).calls⟩

end rLockerHandler

/-! ## Concrete inputs -/

/-- A platform with 32 bit counters whose `mtx::Unlock` lets a mutex that is
not locked pass. -/
def Env.u32 : Env := ⟨32, by decide, false⟩

/-- A platform with 32 bit counters whose `mtx::Unlock` raises on a mutex that
is not locked. -/
def Env.u32strict : Env := ⟨32, by decide, true⟩

/-! # Theorems -/

theorem two_le_pow_w (E : Env) : 2 ≤ 2 ^ E.w := by
  have h := E.w_pos
  calc 2 = 2 ^ 1 := by norm_num
    _ ≤ 2 ^ E.w := Nat.pow_le_pow_right (by norm_num) h

theorem CounterMax_succ (E : Env) : CounterMax_ E + 1 = 2 ^ E.w := by
  have := two_le_pow_w E
  unfold CounterMax_
  omega

theorem CounterMax_pos (E : Env) : 0 < CounterMax_ E := by
  have := two_le_pow_w E
  unfold CounterMax_
  omega

theorem counter_incr (E : Env) (n : Nat) (h : n < CounterMax_ E) :
    (n + 1) % 2 ^ E.w = n + 1 := by
  have := CounterMax_succ E
  exact Nat.mod_eq_of_lt (by omega)

theorem counter_decr (E : Env) (n : Nat) (h0 : 0 < n) (h : n ≤ CounterMax_ E) :
    (n + 2 ^ E.w - 1) % 2 ^ E.w = n - 1 := by
  have := CounterMax_succ E
  have e : n + 2 ^ E.w - 1 = (n - 1) + 2 ^ E.w := by omega
  rw [e, Nat.add_mod_right]
  exact Nat.mod_eq_of_lt (by omega)

theorem rLocker_Init_st (l : rLocker) :
    (rLocker.Init l).res = .ok () ∧ (rLocker.Init l).st = rLocker.free := by
  rcases l with ⟨⟨m, t⟩, n⟩
  cases m <;> simp [rLocker.Init, rLocker.onCore, rCore_.Init, rCore_.Release_, Step.bind,
    Step.lift, Step.ret, rLocker.free, mtx.Create]

/-- Lock by the owner below the maximum: only the counter moves. -/
theorem rLocker_Lock_owner (E : Env) (T : sTID) (l : rLocker)
    (ho : l.Core_.ThreadID = T) (hc : l.Counter_ < CounterMax_ E) :
    rLocker.Lock E T l = ⟨.ok (), { l with Counter_ := l.Counter_ + 1 }, []⟩ := by
  have hne : l.Counter_ ≠ CounterMax_ E := by omega
  simp [rLocker.Lock, ho, Step.bind, Step.ret, hne, counter_incr E _ hc]

/-- Lock of a free locker: one acquisition, the caller becomes the owner. -/
theorem rLocker_Lock_free (E : Env) (T : sTID) (hT : T ≠ Undefined) :
    rLocker.Lock E T rLocker.free = ⟨.ok (), rLocker.held T 1, [.Lock]⟩ := by
  have hp := CounterMax_pos E
  have hne : (0 : Nat) ≠ CounterMax_ E := by omega
  have h1 : 1 % 2 ^ E.w = 1 := Nat.mod_eq_of_lt (by have := two_le_pow_w E; omega)
  simp [rLocker.Lock, rLocker.free, rLocker.held, rLocker.onCore, rCore_.Lock, rCore_.Test_,
    rCore_.onMutex, mtx.Lock, Step.bind, Step.lift, Step.ret, Step.raise, Ne.symm hT, hne, h1]

theorem Step_bind_assoc {κ σ α β γ : Type} (r : Step κ σ α) (f : σ → α → Step κ σ β)
    (g : σ → β → Step κ σ γ) :
    (r.bind f).bind g = r.bind fun s a => (f s a).bind g := by
  rcases r with ⟨res, st, calls⟩
  cases res with
  | ok a => cases h : (f st a).res <;> simp [Step.bind, h, List.append_assoc]
  | raised e => simp [Step.bind]
  | blocked => simp [Step.bind]

/-- Unlock by the owner of a locker held `n + 1` times. -/
theorem rLocker_Unlock_held (E : Env) (T : sTID) (n : Nat) (hn : n + 1 ≤ CounterMax_ E) :
    rLocker.Unlock E T (rLocker.held T (n + 1)) =
      if n = 0 then ⟨.ok (), rLocker.free, [.Unlock]⟩ else ⟨.ok (), rLocker.held T n, []⟩ := by
  have hd := counter_decr E (n + 1) (by omega) hn
  have hm : n % 2 ^ E.w = n := Nat.mod_eq_of_lt (by have := CounterMax_succ E; omega)
  by_cases h0 : n = 0
  · subst h0
    simp [rLocker.Unlock, rLocker.held, rLocker.free, rLocker.onCore, rCore_.Unlock,
      rCore_.Test_, rCore_.onMutex, mtx.Unlock, Step.bind, Step.lift, Step.ret]
  · simp [rLocker.Unlock, rLocker.held, Step.bind, Step.ret, hm, h0]

theorem rLocker_run_append (E : Env) (T : sTID) (cs ds : List LockerCall) (l : rLocker) :
    rLocker.run E T (cs ++ ds) l = (rLocker.run E T cs l).bind fun l _ => rLocker.run E T ds l := by
  induction cs generalizing l with
  | nil => simp [rLocker.run, Step.bind, Step.ret]
  | cons c cs ih =>
    simp only [List.cons_append, rLocker.run, Step_bind_assoc]
    congr 1
    funext l2 _
    exact ih l2

theorem Step_bind_ok {κ σ α β : Type} (r : Step κ σ α) (f : σ → α → Step κ σ β) (a : α)
    (h : r.res = .ok a) :
    (r.bind f).res = (f r.st a).res ∧ (r.bind f).st = (f r.st a).st := by
  simp [Step.bind, h]

theorem rLocker_Lock_pending (E : Env) (T : sTID) (hT : T ≠ Undefined) (d : Nat)
    (hd : d < CounterMax_ E) :
    (rLocker.Lock E T (rLocker.pending T d)).res = .ok () ∧
      (rLocker.Lock E T (rLocker.pending T d)).st = rLocker.pending T (d + 1) := by
  by_cases h0 : d = 0
  · subst h0
    simp [rLocker.pending, rLocker_Lock_free E T hT]
  · have h := rLocker_Lock_owner E T (rLocker.held T d) rfl hd
    simp only [rLocker.pending, h0, if_false, Nat.add_eq_zero, one_ne_zero, and_false, h]
    simp [rLocker.held]

theorem rLocker_Unlock_pending (E : Env) (T : sTID) (d : Nat)
    (h0 : 0 < d) (hd : d ≤ CounterMax_ E) :
    (rLocker.Unlock E T (rLocker.pending T d)).res = .ok () ∧
      (rLocker.Unlock E T (rLocker.pending T d)).st = rLocker.pending T (d - 1) := by
  obtain ⟨n, rfl⟩ : ∃ n, d = n + 1 := ⟨d - 1, by omega⟩
  have h := rLocker_Unlock_held E T n hd
  by_cases hn : n = 0
  · subst hn
    simp [rLocker.pending, h]
  · simp [rLocker.pending, h, hn]

theorem rLocker_run_pending (E : Env) (T : sTID) (hT : T ≠ Undefined) (cs : List LockerCall) :
    ∀ d : Nat,
      (∀ k, k ≤ cs.length →
        (cs.take k).count .Unlock ≤ d + (cs.take k).count .Lock ∧
        d + (cs.take k).count .Lock - (cs.take k).count .Unlock ≤ CounterMax_ E) →
      (rLocker.run E T cs (rLocker.pending T d)).res = .ok () ∧
      (rLocker.run E T cs (rLocker.pending T d)).st =
        rLocker.pending T (d + cs.count .Lock - cs.count .Unlock) := by
  induction cs with
  | nil => intro d _; simp [rLocker.run, Step.ret]
  | cons c cs ih =>
    intro d h
    have h0 := h 0 (by simp)
    have h1 := h 1 (by simp)
    simp at h0
    cases c with
    | Lock =>
      simp at h1
      obtain ⟨e1, e2⟩ := rLocker_Lock_pending E T hT d (by omega)
      have hb := Step_bind_ok (rLocker.Lock E T (rLocker.pending T d))
        (fun l _ => rLocker.run E T cs l) () e1
      have hi := ih (d + 1) (by
        intro k hk
        have := h (k + 1) (by simp; omega)
        simp at this
        omega)
      simp only [rLocker.run, rLocker.call, hb.1, hb.2, e2, hi.1, hi.2, true_and]
      simp
      congr 1
      omega
    | Unlock =>
      simp at h1
      obtain ⟨e1, e2⟩ := rLocker_Unlock_pending E T d (by omega) (by omega)
      have hb := Step_bind_ok (rLocker.Unlock E T (rLocker.pending T d))
        (fun l _ => rLocker.run E T cs l) () e1
      have hi := ih (d - 1) (by
        intro k hk
        have := h (k + 1) (by simp; omega)
        simp at this
        omega)
      simp only [rLocker.run, rLocker.call, hb.1, hb.2, e2, hi.1, hi.2, true_and]
      simp
      congr 1
      omega

theorem rLocker_run_locks (E : Env) (T : sTID) (hT : T ≠ Undefined) (n : Nat) :
    ∀ d : Nat, d + n ≤ CounterMax_ E →
      (rLocker.run E T (List.replicate n .Lock) (rLocker.pending T d)).res = .ok () ∧
      (rLocker.run E T (List.replicate n .Lock) (rLocker.pending T d)).st =
        rLocker.pending T (d + n) := by
  induction n with
  | zero => intro d _; simp [rLocker.run, Step.ret]
  | succ n ih =>
    intro d h
    obtain ⟨e1, e2⟩ := rLocker_Lock_pending E T hT d (by omega)
    have hb := Step_bind_ok (rLocker.Lock E T (rLocker.pending T d))
      (fun l _ => rLocker.run E T (List.replicate n .Lock) l) () e1
    have hi := ih (d + 1) (by omega)
    simp only [List.replicate_succ, rLocker.run, rLocker.call, hb.1, hb.2, e2, hi.1, hi.2,
      true_and]
    congr 1
    omega

theorem rLocker_run_unlocks (E : Env) (T : sTID) (n : Nat) :
    ∀ d : Nat, n ≤ d → d ≤ CounterMax_ E →
      (rLocker.run E T (List.replicate n .Unlock) (rLocker.pending T d)).res = .ok () ∧
      (rLocker.run E T (List.replicate n .Unlock) (rLocker.pending T d)).st =
        rLocker.pending T (d - n) := by
  induction n with
  | zero => intro d _ _; simp [rLocker.run, Step.ret]
  | succ n ih =>
    intro d h hM
    obtain ⟨e1, e2⟩ := rLocker_Unlock_pending E T d (by omega) hM
    have hb := Step_bind_ok (rLocker.Unlock E T (rLocker.pending T d))
      (fun l _ => rLocker.run E T (List.replicate n .Unlock) l) () e1
    have hi := ih (d - 1) (by omega) (by omega)
    simp only [List.replicate_succ, rLocker.run, rLocker.call, hb.1, hb.2, e2, hi.1, hi.2,
      true_and]
    congr 1
    omega

theorem rLocker_run_locks_unlocks (E : Env) (T : sTID) (hT : T ≠ Undefined) (n m : Nat)
    (hn : n ≤ CounterMax_ E) (hm : m ≤ n) :
    (rLocker.run E T (List.replicate n .Lock ++ List.replicate m .Unlock) rLocker.free).res
        = .ok () ∧
      (rLocker.run E T (List.replicate n .Lock ++ List.replicate m .Unlock) rLocker.free).st
        = rLocker.pending T (n - m) := by
  have hl := rLocker_run_locks E T hT n 0 (by omega)
  have hu := rLocker_run_unlocks E T m n hm hn
  have hf : rLocker.pending T 0 = rLocker.free := by simp [rLocker.pending]
  rw [hf] at hl
  simp only [Nat.zero_add] at hl
  have hb := Step_bind_ok (rLocker.run E T (List.replicate n .Lock) rLocker.free)
    (fun l _ => rLocker.run E T (List.replicate m .Unlock) l) () hl.1
  rw [rLocker_run_append, hb.1, hb.2, hl.2]
  exact hu

theorem rLocker_IsLocked_pending (T : sTID) (d : Nat) :
    (rLocker.IsLocked (rLocker.pending T d)).res = .ok (decide (0 < d)) := by
  by_cases h : d = 0
  · subst h
    simp [rLocker.pending, rLocker.free, rLocker.IsLocked, rLocker.onCore, rCore_.IsLocked,
      rCore_.Test_, rCore_.onMutex, mtx.IsLocked, Step.bind, Step.lift, Step.ret]
  · have : 0 < d := by omega
    simp [rLocker.pending, h, this, rLocker.held, rLocker.IsLocked, rLocker.onCore,
      rCore_.IsLocked, rCore_.Test_, rCore_.onMutex, mtx.IsLocked, Step.bind, Step.lift, Step.ret]

/-- Claim C1. On a freshly initialised `rLocker`, a sequence of `Lock` and
`Unlock` calls made by one thread `T` (not `Undefined`), in which no prefix has
more `Unlock` than `Lock` calls nor more than `CounterMax_` pending `Lock`
calls, returns without error; the counter is then the number of `Lock` calls
minus the number of `Unlock` calls; when that number is positive `IsLocked`
answers true and the owner is `T`; when it is zero the owner is `Undefined`,
the mutex is not locked and `IsLocked` answers false. In particular `N` locks
followed by `N` unlocks leave the locker free, and `K` locks followed by
`K - 1` unlocks leave it locked and owned by `T`, with the counter at one. -/
theorem rLocker_matched_calls (E : Env) (T : sTID) (hT : T ≠ Undefined) (l0 : rLocker)
    (cs : List LockerCall)
    (hcs : ∀ k, k ≤ cs.length →
      (cs.take k).count .Unlock ≤ (cs.take k).count .Lock ∧
      (cs.take k).count .Lock - (cs.take k).count .Unlock ≤ CounterMax_ E)
    (N : Nat) (hN : N ≤ CounterMax_ E) (K : Nat) (hK0 : 0 < K) (hK : K ≤ CounterMax_ E) :
    ((rLocker.run E T cs (rLocker.Init l0).st).res = .ok () ∧
      (rLocker.run E T cs (rLocker.Init l0).st).st.Counter_
        = cs.count .Lock - cs.count .Unlock ∧
      (0 < cs.count .Lock - cs.count .Unlock →
        (rLocker.IsLocked (rLocker.run E T cs (rLocker.Init l0).st).st).res = .ok true ∧
        (rLocker.run E T cs (rLocker.Init l0).st).st.Core_.ThreadID = T) ∧
      (cs.count .Lock - cs.count .Unlock = 0 →
        (rLocker.IsLocked (rLocker.run E T cs (rLocker.Init l0).st).st).res = .ok false ∧
        (rLocker.run E T cs (rLocker.Init l0).st).st.Core_.ThreadID = Undefined ∧
        (rLocker.run E T cs (rLocker.Init l0).st).st.Core_.Mutex_ = some ⟨false⟩)) ∧
    ((rLocker.run E T (List.replicate N .Lock ++ List.replicate N .Unlock)
        (rLocker.Init l0).st).res = .ok () ∧
      (rLocker.run E T (List.replicate N .Lock ++ List.replicate N .Unlock)
        (rLocker.Init l0).st).st = ⟨⟨some ⟨false⟩, Undefined⟩, 0⟩) ∧
    ((rLocker.run E T (List.replicate K .Lock ++ List.replicate (K - 1) .Unlock)
        (rLocker.Init l0).st).res = .ok () ∧
      (rLocker.run E T (List.replicate K .Lock ++ List.replicate (K - 1) .Unlock)
        (rLocker.Init l0).st).st = ⟨⟨some ⟨true⟩, T⟩, 1⟩) := by
  rw [(rLocker_Init_st l0).2]
  have hf : rLocker.pending T 0 = rLocker.free := by simp [rLocker.pending]
  refine ⟨?_, ?_, ?_⟩
  · have h := rLocker_run_pending E T hT cs 0 (by simpa using hcs)
    rw [hf] at h
    simp only [Nat.zero_add] at h
    have hi := rLocker_IsLocked_pending T (cs.count .Lock - cs.count .Unlock)
    refine ⟨h.1, ?_, ?_, ?_⟩
    · rw [h.2]
      by_cases hd : cs.count .Lock - cs.count .Unlock = 0
      · simp [rLocker.pending, hd, rLocker.free]
      · simp [rLocker.pending, hd, rLocker.held]
    · intro hd
      have hd0 : cs.count .Lock - cs.count .Unlock ≠ 0 := by omega
      rw [h.2, hi]
      simp [hd, rLocker.pending, hd0, rLocker.held]
    · intro hd
      rw [h.2, hi]
      simp [hd, rLocker.pending, rLocker.free]
  · have h := rLocker_run_locks_unlocks E T hT N N hN le_rfl
    simpa [rLocker.pending, rLocker.free] using h
  · have h := rLocker_run_locks_unlocks E T hT K (K - 1) hK (by omega)
    have e : K - (K - 1) = 1 := by omega
    simpa [e, rLocker.pending, rLocker.held] using h

theorem rLocker_matched_calls_witness :
    (rLocker.run Env.u32 7 [.Lock, .Lock, .Unlock] (rLocker.Init rLocker.ctor).st).res
        = .ok () ∧
      (rLocker.run Env.u32 7 [.Lock, .Lock, .Unlock]
        (rLocker.Init rLocker.ctor).st).st.Counter_ = 1 ∧
      (rLocker.run Env.u32 7 (List.replicate 2 .Lock ++ List.replicate 2 .Unlock)
        (rLocker.Init rLocker.ctor).st).st = ⟨⟨some ⟨false⟩, Undefined⟩, 0⟩ ∧
      (rLocker.run Env.u32 7 (List.replicate 3 .Lock ++ List.replicate (3 - 1) .Unlock)
        (rLocker.Init rLocker.ctor).st).st = ⟨⟨some ⟨true⟩, 7⟩, 1⟩ :=
  have h := rLocker_matched_calls Env.u32 7 (by decide) rLocker.ctor [.Lock, .Lock, .Unlock]
    (by decide) 2 (by decide) 3 (by decide) (by decide)
  ⟨h.1.1, h.1.2.1, h.2.1.2, h.2.2.2⟩

/-- Unlock by a thread that is not the recorded owner. -/
theorem rLocker_Unlock_stranger (E : Env) (T : sTID) (l : rLocker)
    (h : l.Core_.ThreadID ≠ T) :
    rLocker.Unlock E T l = ⟨.raised .Fwk, l, []⟩ := by
  unfold rLocker.Unlock
  rw [if_neg h]
  by_cases hu : l.Core_.ThreadID = Undefined
  · rw [if_pos hu]
    simp [Step.bind, Step.raise]
  · rw [if_neg hu]
    simp [Step.bind, Step.raise]

/-- Claim C2. For every state of an `rLocker` and every calling thread `T`
that is not the recorded owner (the locker has no owner, or another one),
`Unlock` raises the framework error `qRFwk` and leaves the whole locker
(counter, recorded owner, mutex) as it was, without any call to the mutex
library. -/
theorem rLocker_Unlock_not_owner (E : Env) (T : sTID) (l : rLocker)
    (h : l.Core_.ThreadID ≠ T) :
    rLocker.Unlock E T l = ⟨.raised .Fwk, l, []⟩ :=
  rLocker_Unlock_stranger E T l h

theorem rLocker_Unlock_not_owner_witness :
    (rLocker.held 7 2).Core_.ThreadID ≠ 8 ∧
      rLocker.Unlock Env.u32 8 (rLocker.held 7 2) = ⟨.raised .Fwk, rLocker.held 7 2, []⟩ ∧
      rLocker.Unlock Env.u32 8 rLocker.free = ⟨.raised .Fwk, rLocker.free, []⟩ :=
  ⟨by decide, rLocker_Unlock_not_owner Env.u32 8 (rLocker.held 7 2) (by decide),
    rLocker_Unlock_not_owner Env.u32 8 rLocker.free (by decide)⟩

/-- Claim C3. When the recorded owner of an `rLocker` is the calling thread
`T` and the counter is below `CounterMax_`, `Lock` returns, the counter is one
higher, and nothing else moves: no call is made to the mutex library, the
handler, the state of the mutex and the recorded owner are the same. When the
locker is unowned (initialised, mutex not locked, owner `Undefined`, counter at
zero) and the caller is not `Undefined`, `Lock` makes exactly one call to the
mutex library, the acquisition, records `T` as owner and sets the counter to
one. -/
theorem rLocker_Lock_frame (E : Env) (T : sTID) (l u : rLocker)
    (ho : l.Core_.ThreadID = T) (hc : l.Counter_ < CounterMax_ E)
    (hT : u.Core_.ThreadID ≠ T) (hu : u.Core_.ThreadID = Undefined)
    (hm : u.Core_.Mutex_ = some ⟨false⟩) (h0 : u.Counter_ = 0) :
    rLocker.Lock E T l = ⟨.ok (), { l with Counter_ := l.Counter_ + 1 }, []⟩ ∧
      rLocker.Lock E T u = ⟨.ok (), ⟨⟨some ⟨true⟩, T⟩, 1⟩, [.Lock]⟩ := by
  refine ⟨rLocker_Lock_owner E T l ho hc, ?_⟩
  have hf : u = rLocker.free := by
    rcases u with ⟨⟨m, t⟩, n⟩
    simp_all [rLocker.free]
  have hT2 : T ≠ Undefined := by
    intro e
    exact hT (by rw [hu, e])
  rw [hf, rLocker_Lock_free E T hT2]
  rfl

theorem rLocker_Lock_frame_witness :
    rLocker.Lock Env.u32 7 (rLocker.held 7 3) = ⟨.ok (), rLocker.held 7 4, []⟩ ∧
      rLocker.Lock Env.u32 7 rLocker.free = ⟨.ok (), rLocker.held 7 1, [.Lock]⟩ :=
  rLocker_Lock_frame Env.u32 7 (rLocker.held 7 3) rLocker.free (by decide) (by decide)
    (by decide) (by decide) (by decide) (by decide)

theorem rLocker_reset_st (P : Bool) (l : rLocker) :
    (rLocker.reset P l).res = .ok () ∧ (rLocker.reset P l).st = rLocker.ctor := by
  rcases l with ⟨⟨m, t⟩, n⟩
  cases P <;> cases m <;>
    simp [rLocker.reset, rLocker.onCore, rCore_.reset, rCore_.Release_, Step.bind,
      Step.lift, Step.ret, rLocker.ctor, rCore_.ctor]

theorem rLocker_Lock_CounterInv (E : Env) (T : sTID) (hT : T ≠ Undefined) (l : rLocker)
    (h : rLocker.CounterInv E l) : rLocker.CounterInv E (rLocker.Lock E T l).st := by
  rcases l with ⟨⟨m, t⟩, n⟩
  obtain ⟨h1, h2⟩ := h
  simp only at h1 h2
  have hp := CounterMax_pos E
  by_cases ht : t = T
  · subst ht
    by_cases hn : n = CounterMax_ E
    · simp [rLocker.Lock, Step.bind, Step.ret, Step.raise, hn, rLocker.CounterInv, hT, hp]
    · have hi := counter_incr E n (by omega)
      simp [rLocker.Lock, Step.bind, Step.ret, Step.raise, hn, rLocker.CounterInv, hT, hi]
      omega
  · cases m with
    | none =>
      simp [rLocker.Lock, rLocker.onCore, rCore_.Lock, rCore_.Test_, Step.bind, Step.lift,
        Step.ret, Step.raise, ht, rLocker.CounterInv, h1, h2]
    | some m =>
      rcases m with ⟨b⟩
      cases b with
      | true =>
        simp [rLocker.Lock, rLocker.onCore, rCore_.Lock, rCore_.Test_, rCore_.onMutex, mtx.Lock,
          Step.bind, Step.lift, Step.ret, Step.raise, ht, rLocker.CounterInv, h1, h2]
      | false =>
        by_cases hu : t = Undefined
        · subst hu
          have hn : n = 0 := by
            by_contra hc
            exact (h1.mp (by omega)) rfl
          subst hn
          have hne : (0 : Nat) ≠ CounterMax_ E := by omega
          have h1m : 1 % 2 ^ E.w = 1 :=
            Nat.mod_eq_of_lt (by have := two_le_pow_w E; omega)
          simp [rLocker.Lock, rLocker.onCore, rCore_.Lock, rCore_.Test_, rCore_.onMutex,
            mtx.Lock, Step.bind, Step.lift, Step.ret, Step.raise, ht, rLocker.CounterInv, hne,
            h1m, hT]
          omega
        · simp [rLocker.Lock, rLocker.onCore, rCore_.Lock, rCore_.Test_, rCore_.onMutex,
            mtx.Lock, Step.bind, Step.lift, Step.ret, Step.raise, ht, hu, rLocker.CounterInv,
            h1, h2]

theorem rLocker_Unlock_CounterInv (E : Env) (T : sTID) (hT : T ≠ Undefined) (l : rLocker)
    (h : rLocker.CounterInv E l) : rLocker.CounterInv E (rLocker.Unlock E T l).st := by
  by_cases ht : l.Core_.ThreadID = T
  · rcases l with ⟨⟨m, t⟩, n⟩
    simp only at ht
    subst ht
    obtain ⟨h1, h2⟩ := h
    simp only at h1 h2
    have hn : 0 < n := h1.mpr hT
    have hd := counter_decr E n hn h2
    by_cases hz : n - 1 = 0
    · have hres : ∀ c : rCore_, ((rCore_.Unlock E c).st).ThreadID = c.ThreadID := by
        intro c
        rcases c with ⟨m2, t2⟩
        cases m2 with
        | none => simp [rCore_.Unlock, rCore_.Test_, Step.bind, Step.raise]
        | some m3 =>
          rcases m3 with ⟨b⟩
          cases b <;> cases hs : E.strictUnlock <;>
            simp [rCore_.Unlock, rCore_.Test_, rCore_.onMutex, mtx.Unlock, Step.bind,
              Step.lift, Step.ret, hs]
      simp [rLocker.Unlock, Step.bind, Step.ret, hd, hz, rLocker.onCore, Step.lift,
        rLocker.CounterInv, hres]
    · simp [rLocker.Unlock, Step.bind, Step.ret, hd, hz, rLocker.CounterInv, hT]
      omega
  · rw [rLocker_Unlock_stranger E T l ht]
    exact h

/-- Claim C4. The predicate "the counter is positive exactly when an owner is
recorded, and the counter is at most `CounterMax_`" holds after `Init` and
after `reset`, and every `Lock` and every `Unlock` called by a thread other
than `Undefined` on a locker that satisfies it leaves a locker that satisfies
it, however the call ends (return, error, or suspension). -/
theorem rLocker_CounterInv_kept (E : Env) (T : sTID) (hT : T ≠ Undefined) (l0 l : rLocker)
    (P : Bool) (h : rLocker.CounterInv E l) :
    rLocker.CounterInv E (rLocker.Init l0).st ∧
      rLocker.CounterInv E (rLocker.reset P l0).st ∧
      rLocker.CounterInv E (rLocker.Lock E T l).st ∧
      rLocker.CounterInv E (rLocker.Unlock E T l).st := by
  refine ⟨?_, ?_, rLocker_Lock_CounterInv E T hT l h, rLocker_Unlock_CounterInv E T hT l h⟩
  · rw [(rLocker_Init_st l0).2]
    simp [rLocker.CounterInv, rLocker.free]
  · rw [(rLocker_reset_st P l0).2]
    simp [rLocker.CounterInv, rLocker.ctor, rCore_.ctor]

theorem rLocker_CounterInv_kept_witness :
    rLocker.CounterInv Env.u32 (rLocker.held 7 2) ∧
      rLocker.CounterInv Env.u32 (rLocker.Lock Env.u32 7 (rLocker.held 7 2)).st ∧
      rLocker.CounterInv Env.u32 (rLocker.Unlock Env.u32 8 (rLocker.held 7 2)).st :=
  have h := rLocker_CounterInv_kept Env.u32 7 (by decide) rLocker.ctor (rLocker.held 7 2) true
    (by decide)
  ⟨by decide, h.2.2.1,
    (rLocker_CounterInv_kept Env.u32 8 (by decide) rLocker.ctor (rLocker.held 7 2) true
      (by decide)).2.2.2⟩

theorem rLockerHandler_Lock_free (E : Env) (T : sTID) (hT : T ≠ Undefined) (d : Nat)
    (hd : d < CounterMax_ E) (p : Bool) :
    (rLockerHandler.Lock E T ⟨⟨true, p⟩, rLocker.pending T (d + p.toNat)⟩).res = .ok () ∧
      (rLockerHandler.Lock E T ⟨⟨true, p⟩, rLocker.pending T (d + p.toNat)⟩).st
        = ⟨⟨true, true⟩, rLocker.pending T (d + 1)⟩ := by
  cases p with
  | true => simp [rLockerHandler.Lock, Step.bind, Step.ret]
  | false =>
    obtain ⟨e1, e2⟩ := rLocker_Lock_pending E T hT d hd
    simp [rLockerHandler.Lock, rLockerHandler.L_, Step.bind, Step.ret, Step.lift, e1, e2]

theorem rLockerHandler_Unlock_held (E : Env) (T : sTID) (d : Nat)
    (hd : d < CounterMax_ E) :
    (rLockerHandler.Unlock E T ⟨⟨true, true⟩, rLocker.pending T (d + 1)⟩).res = .ok () ∧
      (rLockerHandler.Unlock E T ⟨⟨true, true⟩, rLocker.pending T (d + 1)⟩).st
        = ⟨⟨true, false⟩, rLocker.pending T d⟩ := by
  obtain ⟨e1, e2⟩ := rLocker_Unlock_pending E T (d + 1) (by omega) (by omega)
  simp [rLockerHandler.Unlock, rLockerHandler.L_, Step.bind, Step.ret, Step.lift, e1, e2]

theorem rLockerHandler_Unlock_idle (E : Env) (T : sTID) (l : rLocker) (q : Bool) :
    rLockerHandler.Unlock E T ⟨⟨q, false⟩, l⟩ = ⟨.raised .Gnr, ⟨⟨q, false⟩, l⟩, []⟩ := by
  simp [rLockerHandler.Unlock, Step.bind, Step.raise]

theorem rLockerHandler_reset_any (E : Env) (T : sTID) (d : Nat) (hd : d < CounterMax_ E)
    (p : Bool) :
    (rLockerHandler.reset E T true ⟨⟨true, p⟩, rLocker.pending T (d + p.toNat)⟩).res
        = .ok () ∧
      (rLockerHandler.reset E T true ⟨⟨true, p⟩, rLocker.pending T (d + p.toNat)⟩).st
        = ⟨⟨false, false⟩, rLocker.pending T d⟩ := by
  cases p with
  | false => simp [rLockerHandler.reset, Step.bind, Step.ret]
  | true =>
    obtain ⟨e1, e2⟩ := rLocker_Unlock_pending E T (d + 1) (by omega) (by omega)
    simp [rLockerHandler.reset, rLockerHandler.L_, Step.bind, Step.ret, Step.lift, e1, e2]

theorem rLockerHandler_Init_fresh (E : Env) (T : sTID) (hT : T ≠ Undefined) (d : Nat)
    (hd : d < CounterMax_ E) :
    (rLockerHandler.Init E T ⟨rLockerHandler.ctor, rLocker.pending T d⟩).res = .ok () ∧
      (rLockerHandler.Init E T ⟨rLockerHandler.ctor, rLocker.pending T d⟩).st
        = ⟨⟨true, true⟩, rLocker.pending T (d + 1)⟩ := by
  have h := rLockerHandler_Lock_free E T hT d hd false
  simp only [Bool.toNat_false, Nat.add_zero] at h
  simp [rLockerHandler.Init, rLockerHandler.reset, rLockerHandler.ctor, Step.bind, Step.ret,
    h.1, h.2]

theorem rLockerHandler_Init_eq (E : Env) (T : sTID) (hT : T ≠ Undefined) :
    rLockerHandler.Init E T ⟨rLockerHandler.ctor, rLocker.free⟩
      = ⟨.ok (), ⟨⟨true, true⟩, rLocker.held T 1⟩, [.Lock]⟩ := by
  simp [rLockerHandler.Init, rLockerHandler.reset, rLockerHandler.ctor, rLockerHandler.Lock,
    rLockerHandler.L_, Step.bind, Step.ret, Step.lift, rLocker_Lock_free E T hT]

theorem rLockerHandler_Unlock_eq (E : Env) (T : sTID) :
    rLockerHandler.Unlock E T ⟨⟨true, true⟩, rLocker.held T 1⟩
      = ⟨.ok (), ⟨⟨true, false⟩, rLocker.free⟩, [.Unlock]⟩ := by
  have h := rLocker_Unlock_held E T 0 (by have := CounterMax_pos E; omega)
  simp only [Nat.zero_add, if_true] at h
  simp [rLockerHandler.Unlock, rLockerHandler.L_, Step.bind, Step.ret, Step.lift, h]

theorem rLockerHandler_Lock_eq (E : Env) (T : sTID) (hT : T ≠ Undefined) :
    rLockerHandler.Lock E T ⟨⟨true, false⟩, rLocker.free⟩
      = ⟨.ok (), ⟨⟨true, true⟩, rLocker.held T 1⟩, [.Lock]⟩ := by
  simp [rLockerHandler.Lock, rLockerHandler.L_, Step.bind, Step.ret, Step.lift,
    rLocker_Lock_free E T hT]

theorem rLockerHandler_reset_held_eq (E : Env) (T : sTID) :
    rLockerHandler.reset E T true ⟨⟨true, true⟩, rLocker.held T 1⟩
      = ⟨.ok (), ⟨⟨false, false⟩, rLocker.free⟩, [.Unlock]⟩ := by
  have h := rLocker_Unlock_held E T 0 (by have := CounterMax_pos E; omega)
  simp only [Nat.zero_add, if_true] at h
  simp [rLockerHandler.reset, rLockerHandler.L_, Step.bind, Step.ret, Step.lift, h]

theorem rLockerHandler_reset_idle_eq (E : Env) (T : sTID) (q : Bool) (l : rLocker) :
    rLockerHandler.reset E T true ⟨⟨q, false⟩, l⟩ = ⟨.ok (), ⟨⟨false, false⟩, l⟩, []⟩ := by
  simp [rLockerHandler.reset, Step.bind, Step.ret]

/-! ## The handler on a locker the thread may already hold -/

theorem rLockerHandler_Init_pending (E : Env) (T : sTID) (hT : T ≠ Undefined) (d : Nat)
    (hd : d < CounterMax_ E) :
    ∃ cs, rLockerHandler.Init E T ⟨rLockerHandler.ctor, rLocker.pending T d⟩
      = ⟨.ok (), ⟨⟨true, true⟩, rLocker.pending T (d + 1)⟩, cs⟩ := by
  obtain ⟨h1, h2⟩ := rLockerHandler_Init_fresh E T hT d hd
  refine ⟨(rLockerHandler.Init E T ⟨rLockerHandler.ctor, rLocker.pending T d⟩).calls, ?_⟩
  rw [← h1, ← h2]

theorem rLockerHandler_Unlock_pending (E : Env) (T : sTID) (d : Nat)
    (hd : d < CounterMax_ E) :
    ∃ cs, rLockerHandler.Unlock E T ⟨⟨true, true⟩, rLocker.pending T (d + 1)⟩
      = ⟨.ok (), ⟨⟨true, false⟩, rLocker.pending T d⟩, cs⟩ := by
  obtain ⟨h1, h2⟩ := rLockerHandler_Unlock_held E T d hd
  refine ⟨(rLockerHandler.Unlock E T ⟨⟨true, true⟩, rLocker.pending T (d + 1)⟩).calls, ?_⟩
  rw [← h1, ← h2]

theorem rLockerHandler_reset_pending (E : Env) (T : sTID) (d : Nat)
    (hd : d < CounterMax_ E) :
    ∃ cs, rLockerHandler.reset E T true ⟨⟨true, true⟩, rLocker.pending T (d + 1)⟩
      = ⟨.ok (), ⟨⟨false, false⟩, rLocker.pending T d⟩, cs⟩ := by
  obtain ⟨h1, h2⟩ := rLockerHandler_reset_any E T d hd true
  simp only [Bool.toNat_true] at h1 h2
  refine ⟨(rLockerHandler.reset E T true ⟨⟨true, true⟩, rLocker.pending T (d + 1)⟩).calls, ?_⟩
  rw [← h1, ← h2]

/-! ## The blocker -/

theorem rBlocker_WaitArm_unarmed (E : Env) (A : sTID) (hA : A ≠ Undefined) (ig : Bool) :
    rBlocker.WaitArm E A ig ⟨rLockerHandler.ctor, rBlocker.unarmed⟩
      = ⟨.ok (), ⟨⟨true, false⟩, rBlocker.armed A⟩,
          [(.gate, .Lock), (.signal, .Lock), (.gate, .Unlock)]⟩ := by
  simp [rBlocker.WaitArm, rBlocker.onHandler, rBlocker.inFrame, rBlocker.onCore,
    rBlocker.unarmed, rBlocker.armed, rLockerHandler_Init_eq E A hA, rLockerHandler_Unlock_eq,
    rCore_.Lock, rCore_.Test_, rCore_.onMutex, mtx.Lock, Step.bind, Step.ret, Step.lift]

theorem rBlocker_Wait_unarmed (E : Env) (A : sTID) (hA : A ≠ Undefined) (ig : Bool) :
    rBlocker.Wait E A ig rBlocker.unarmed
      = ⟨.blocked, rBlocker.armed A,
          [(.gate, .Lock), (.signal, .Lock), (.gate, .Unlock), (.signal, .Lock)]⟩ := by
  simp [rBlocker.Wait, rBlocker_WaitArm_unarmed E A hA, rBlocker.WaitResume, rBlocker.inFrame,
    rBlocker.onCore, rBlocker.armed, rCore_.Lock, rCore_.Test_, rCore_.onMutex, mtx.Lock,
    Step.bind, Step.ret, Step.lift, Step.atExit]

theorem rBlocker_Unblock_armed (E : Env) (A B : sTID) (hB : B ≠ Undefined) (ig : Bool)
    (hBA : ig = true ∨ A ≠ B) (hA : A ≠ Undefined) :
    rBlocker.Unblock E B ig (rBlocker.armed A)
      = ⟨.ok (), rBlocker.released A,
          [(.gate, .Lock), (.signal, .Unlock), (.gate, .Unlock)]⟩ := by
  have hc : (!ig && decide (A = B)) = false := by
    rcases hBA with h | h
    · simp [h]
    · simp [h]
  simp [rBlocker.Unblock, rBlocker.UnblockBody, rBlocker.scopeExit, rBlocker.onHandler,
    rBlocker.inFrame, rBlocker.onCore, rBlocker.armed, rBlocker.released,
    rLockerHandler_Init_eq E B hB, rLockerHandler_reset_held_eq, hc, hA,
    rCore_.Unlock, rCore_.Test_, rCore_.onMutex, mtx.Unlock, Step.bind, Step.ret, Step.raise,
    Step.lift, Step.atExit]

theorem rBlocker_WaitFinish_released (E : Env) (A : sTID) (hA : A ≠ Undefined) (X : sTID) :
    rBlocker.WaitFinish E A ⟨⟨true, false⟩, rBlocker.released X⟩
      = ⟨.ok (), rBlocker.unarmed,
          [(.signal, .Lock), (.gate, .Lock), (.signal, .Unlock), (.gate, .Unlock)]⟩ := by
  simp [rBlocker.WaitFinish, rBlocker.WaitResume, rBlocker.scopeExit, rBlocker.onHandler,
    rBlocker.inFrame, rBlocker.onCore, rBlocker.released, rBlocker.unarmed,
    rLockerHandler_Lock_eq E A hA, rLockerHandler_reset_held_eq,
    rCore_.Lock, rCore_.Unlock, rCore_.Test_, rCore_.onMutex, mtx.Lock, mtx.Unlock,
    Step.bind, Step.ret, Step.lift, Step.atExit]

/-- Claim C6. From the state UNARMED (mutex of `Core_` not locked, no waiting
thread recorded, locker `Locker_` free), thread `A` runs the first part of
`Wait`: it returns with the blocker ARMED in the name of `A`, and `Wait` is
suspended at its second `Core_.Lock()`. Another thread `B` then runs `Unblock`,
which returns. `A` then ends `Wait` with the handler it was suspended with: no
error is raised and the blocker is UNARMED again, the locker `Locker_` free
with its counter at zero. A `Wait` called from that state by any thread `C`
arms the blocker again and is suspended at its second `Core_.Lock()`, on a
mutex that is locked. -/
theorem rBlocker_round_trip (E : Env) (A B C : sTID) (igA igB igC : Bool)
    (hA : A ≠ Undefined) (hB : B ≠ Undefined) (hAB : A ≠ B) (hC : C ≠ Undefined) :
    (rBlocker.WaitArm E A igA ⟨rLockerHandler.ctor, rBlocker.unarmed⟩).res = .ok () ∧
      (rBlocker.WaitArm E A igA ⟨rLockerHandler.ctor, rBlocker.unarmed⟩).st.B
        = ⟨rLocker.free, ⟨some ⟨true⟩, A⟩⟩ ∧
      rBlocker.Wait E A igA rBlocker.unarmed
        = ⟨.blocked, (rBlocker.WaitArm E A igA ⟨rLockerHandler.ctor, rBlocker.unarmed⟩).st.B,
            [(.gate, .Lock), (.signal, .Lock), (.gate, .Unlock), (.signal, .Lock)]⟩ ∧
      (rBlocker.Unblock E B igB
        (rBlocker.WaitArm E A igA ⟨rLockerHandler.ctor, rBlocker.unarmed⟩).st.B).res
          = .ok () ∧
      (rBlocker.WaitFinish E A
        ⟨(rBlocker.WaitArm E A igA ⟨rLockerHandler.ctor, rBlocker.unarmed⟩).st.Locker,
          (rBlocker.Unblock E B igB
            (rBlocker.WaitArm E A igA ⟨rLockerHandler.ctor, rBlocker.unarmed⟩).st.B).st⟩).res
          = .ok () ∧
      (rBlocker.WaitFinish E A
        ⟨(rBlocker.WaitArm E A igA ⟨rLockerHandler.ctor, rBlocker.unarmed⟩).st.Locker,
          (rBlocker.Unblock E B igB
            (rBlocker.WaitArm E A igA ⟨rLockerHandler.ctor, rBlocker.unarmed⟩).st.B).st⟩).st
          = ⟨⟨⟨some ⟨false⟩, Undefined⟩, 0⟩, ⟨some ⟨false⟩, Undefined⟩⟩ ∧
      rBlocker.Wait E C igC
        (rBlocker.WaitFinish E A
          ⟨(rBlocker.WaitArm E A igA ⟨rLockerHandler.ctor, rBlocker.unarmed⟩).st.Locker,
            (rBlocker.Unblock E B igB
              (rBlocker.WaitArm E A igA
                ⟨rLockerHandler.ctor, rBlocker.unarmed⟩).st.B).st⟩).st
        = ⟨.blocked, ⟨rLocker.free, ⟨some ⟨true⟩, C⟩⟩,
            [(.gate, .Lock), (.signal, .Lock), (.gate, .Unlock), (.signal, .Lock)]⟩ := by
  have h1 := rBlocker_WaitArm_unarmed E A hA igA
  have h2 := rBlocker_Wait_unarmed E A hA igA
  have h3 := rBlocker_Unblock_armed E A B hB igB (Or.inr hAB) hA
  have h4 := rBlocker_WaitFinish_released E A hA A
  have h5 := rBlocker_Wait_unarmed E C hC igC
  simp only [h1, h2, h3, h4, h5]
  simp [rBlocker.armed, rBlocker.unarmed, rLocker.free]

theorem rBlocker_round_trip_witness :
    rBlocker.Wait Env.u32 1 false rBlocker.unarmed
        = ⟨.blocked, rBlocker.armed 1,
            [(.gate, .Lock), (.signal, .Lock), (.gate, .Unlock), (.signal, .Lock)]⟩ ∧
      (rBlocker.WaitFinish Env.u32 1
        ⟨(rBlocker.WaitArm Env.u32 1 false ⟨rLockerHandler.ctor, rBlocker.unarmed⟩).st.Locker,
          (rBlocker.Unblock Env.u32 2 false
            (rBlocker.WaitArm Env.u32 1 false
              ⟨rLockerHandler.ctor, rBlocker.unarmed⟩).st.B).st⟩).st = rBlocker.unarmed :=
  have h := rBlocker_round_trip Env.u32 1 2 3 false false false (by decide) (by decide)
    (by decide) (by decide)
  ⟨h.2.2.1, h.2.2.2.2.2.1⟩

theorem rBlocker_onHandler_Core {α : Type} (f : Guarded → Step mtx.Call Guarded α)
    (fr : Frame) : (rBlocker.onHandler f fr).st.B.Core_ = fr.B.Core_ := by
  simp [rBlocker.onHandler, Step.lift]

theorem rBlocker_signalCalls_gate (cs : List mtx.Call) :
    rBlocker.signalCalls (cs.map fun c => (Part.gate, c)) = [] := by
  induction cs with
  | nil => simp [rBlocker.signalCalls]
  | cons c cs ih =>
    simp only [rBlocker.signalCalls, List.map_cons, List.map_eq_nil_iff] at ih ⊢
    rw [List.filter_cons_of_neg (by simp)]
    exact ih

theorem rBlocker_signalCalls_append (xs ys : List (Part × mtx.Call)) :
    rBlocker.signalCalls (xs ++ ys) = rBlocker.signalCalls xs ++ rBlocker.signalCalls ys := by
  simp [rBlocker.signalCalls]

theorem rBlocker_onHandler_signalCalls {α : Type} (f : Guarded → Step mtx.Call Guarded α)
    (fr : Frame) : rBlocker.signalCalls (rBlocker.onHandler f fr).calls = [] := by
  simp only [rBlocker.onHandler, Step.lift]
  exact rBlocker_signalCalls_gate _

/-- Whatever the state of the blocker, an `Unblock( false )` called by the
recorded waiting thread does not return, leaves `Core_` as it was and makes no
call on its mutex. -/
theorem rBlocker_Unblock_by_waiter_any (E : Env) (T : sTID) (b : rBlocker)
    (h : b.Core_.ThreadID = T) :
    (rBlocker.Unblock E T false b).res ≠ .ok () ∧
      (rBlocker.Unblock E T false b).st.Core_ = b.Core_ ∧
      rBlocker.signalCalls (rBlocker.Unblock E T false b).calls = [] := by
  have hc := rBlocker_onHandler_Core (rLockerHandler.Init E T) ⟨rLockerHandler.ctor, b⟩
  have hs := rBlocker_onHandler_signalCalls (rLockerHandler.Init E T) ⟨rLockerHandler.ctor, b⟩
  simp only at hc
  have ht : (rBlocker.onHandler (rLockerHandler.Init E T)
      ⟨rLockerHandler.ctor, b⟩).st.B.Core_.ThreadID = T := by rw [hc, h]
  cases hr : (rBlocker.onHandler (rLockerHandler.Init E T) ⟨rLockerHandler.ctor, b⟩).res with
  | ok a =>
    simp [rBlocker.Unblock, rBlocker.UnblockBody, rBlocker.scopeExit, Step.bind, Step.atExit,
      Step.lift, Step.raise, hr, h, rBlocker_onHandler_Core, hc, rBlocker_signalCalls_append,
      rBlocker_onHandler_signalCalls, hs]
  | raised e =>
    simp [rBlocker.Unblock, rBlocker.UnblockBody, rBlocker.scopeExit, Step.bind, Step.atExit,
      Step.lift, hr, rBlocker_onHandler_Core, hc, rBlocker_signalCalls_append,
      rBlocker_onHandler_signalCalls, hs]
  | blocked =>
    simp [rBlocker.Unblock, rBlocker.UnblockBody, Step.bind, Step.atExit,
      Step.lift, hr, hc, hs]

/-- With the locker `Locker_` free, an `Unblock( false )` called by the
recorded waiting thread raises and leaves the blocker as it was. -/
theorem rBlocker_Unblock_by_waiter_eq (E : Env) (T : sTID) (c : rCore_)
    (hT : T ≠ Undefined) (hc : c.ThreadID = T) :
    rBlocker.Unblock E T false ⟨rLocker.free, c⟩
      = ⟨.raised .Fwk, ⟨rLocker.free, c⟩, [(.gate, .Lock), (.gate, .Unlock)]⟩ := by
  simp [rBlocker.Unblock, rBlocker.UnblockBody, rBlocker.scopeExit, rBlocker.onHandler,
    rLockerHandler_Init_eq E T hT, rLockerHandler_reset_held_eq, hc,
    Step.bind, Step.raise, Step.lift, Step.atExit]

/-- With the locker `Locker_` free or held by the caller, an `Unblock( false )`
called by the recorded waiting thread raises and leaves the blocker as it
was. -/
theorem rBlocker_Unblock_by_waiter_pending (E : Env) (T : sTID) (c : rCore_) (d : Nat)
    (hT : T ≠ Undefined) (hc : c.ThreadID = T) (hd : d < CounterMax_ E) :
    (rBlocker.Unblock E T false ⟨rLocker.pending T d, c⟩).res = .raised .Fwk ∧
      (rBlocker.Unblock E T false ⟨rLocker.pending T d, c⟩).st
        = ⟨rLocker.pending T d, c⟩ := by
  obtain ⟨cs1, h1⟩ := rLockerHandler_Init_pending E T hT d hd
  obtain ⟨cs2, h2⟩ := rLockerHandler_reset_pending E T d hd
  simp [rBlocker.Unblock, rBlocker.UnblockBody, rBlocker.scopeExit, rBlocker.onHandler,
    h1, h2, hc, Step.bind, Step.raise, Step.lift, Step.atExit]

/-- Claim C7. When the recorded waiting thread of an `rBlocker` is the calling
thread `T`, `Unblock( false )` never releases the mutex of `Core_`: in every
state `b` of the blocker the call does not return normally, leaves `Core_`
(mutex and recorded thread) as it was and makes no call on its mutex. When the
caller can take the locker `Locker_` (it is free, or held `d` times by `T`
itself, below `CounterMax_`; `T` is not `Undefined`), the call raises the
framework error `qRFwk` and the whole blocker is as on entry: `Core_`
untouched, `Locker_` with the owner and the counter it had. With `Locker_`
free the calls made are one acquisition and one release of its mutex. -/
theorem rBlocker_Unblock_self (E : Env) (T : sTID) (b : rBlocker) (c : rCore_) (d : Nat)
    (hT : T ≠ Undefined) (hb : b.Core_.ThreadID = T) (hc : c.ThreadID = T)
    (hd : d < CounterMax_ E) :
    ((rBlocker.Unblock E T false b).res ≠ .ok () ∧
      (rBlocker.Unblock E T false b).st.Core_ = b.Core_ ∧
      rBlocker.signalCalls (rBlocker.Unblock E T false b).calls = []) ∧
    ((rBlocker.Unblock E T false ⟨rLocker.pending T d, c⟩).res = .raised .Fwk ∧
      (rBlocker.Unblock E T false ⟨rLocker.pending T d, c⟩).st
        = ⟨rLocker.pending T d, c⟩) ∧
    rBlocker.Unblock E T false ⟨rLocker.free, c⟩
      = ⟨.raised .Fwk, ⟨rLocker.free, c⟩, [(.gate, .Lock), (.gate, .Unlock)]⟩ :=
  ⟨rBlocker_Unblock_by_waiter_any E T b hb,
    rBlocker_Unblock_by_waiter_pending E T c d hT hc hd,
    rBlocker_Unblock_by_waiter_eq E T c hT hc⟩

theorem rBlocker_Unblock_self_witness :
    (rBlocker.armed 5).Core_.ThreadID = 5 ∧
      rBlocker.Unblock Env.u32 5 false (rBlocker.armed 5)
        = ⟨.raised .Fwk, rBlocker.armed 5, [(.gate, .Lock), (.gate, .Unlock)]⟩ :=
  ⟨rfl, (rBlocker_Unblock_self Env.u32 5 (rBlocker.armed 5) ⟨some ⟨true⟩, 5⟩ 0 (by decide)
    rfl rfl (by decide)).2.2⟩

/-- Whatever the state of the locker `Locker_`, a `Wait( false )` called by a
thread other than the recorded waiting thread of an armed blocker does not
return, leaves `Core_` as it was and makes no call on its mutex. -/
theorem rBlocker_Wait_stranger_any (E : Env) (T : sTID) (b : rBlocker)
    (ha : b.Core_.ThreadID ≠ Undefined) (ht : b.Core_.ThreadID ≠ T) :
    (rBlocker.Wait E T false b).res ≠ .ok () ∧
      (rBlocker.Wait E T false b).st.Core_ = b.Core_ ∧
      rBlocker.signalCalls (rBlocker.Wait E T false b).calls = [] := by
  have hc := rBlocker_onHandler_Core (rLockerHandler.Init E T) ⟨rLockerHandler.ctor, b⟩
  have hs := rBlocker_onHandler_signalCalls (rLockerHandler.Init E T) ⟨rLockerHandler.ctor, b⟩
  simp only at hc
  cases hr : (rBlocker.onHandler (rLockerHandler.Init E T) ⟨rLockerHandler.ctor, b⟩).res with
  | ok a =>
    simp [rBlocker.Wait, rBlocker.WaitArm, rBlocker.scopeExit, Step.bind, Step.atExit,
      Step.lift, Step.raise, hr, ha, ht, rBlocker_onHandler_Core, hc,
      rBlocker_signalCalls_append, rBlocker_onHandler_signalCalls, hs]
  | raised e =>
    simp [rBlocker.Wait, rBlocker.WaitArm, rBlocker.scopeExit, Step.bind, Step.atExit,
      Step.lift, hr, rBlocker_onHandler_Core, hc, rBlocker_signalCalls_append,
      rBlocker_onHandler_signalCalls, hs]
  | blocked =>
    simp [rBlocker.Wait, rBlocker.WaitArm, Step.bind, Step.atExit, Step.lift, hr, hc, hs]

/-- A `Wait` on an armed blocker whose locker `Locker_` is free or held by the
caller `T`, another thread than the recorded one: with `IgnoreTarget` false it
raises and leaves the blocker as it was; with `IgnoreTarget` true its first
part returns with the blocker as it was and the call is suspended at the
second `Core_.Lock()`. -/
theorem rBlocker_Wait_stranger_pending (E : Env) (T A : sTID) (d : Nat)
    (hT : T ≠ Undefined) (hA : A ≠ Undefined) (hAT : A ≠ T) (hd : d < CounterMax_ E) :
    ((rBlocker.Wait E T false ⟨rLocker.pending T d, ⟨some ⟨true⟩, A⟩⟩).res = .raised .Fwk ∧
      (rBlocker.Wait E T false ⟨rLocker.pending T d, ⟨some ⟨true⟩, A⟩⟩).st
        = ⟨rLocker.pending T d, ⟨some ⟨true⟩, A⟩⟩) ∧
    ((rBlocker.WaitArm E T true
        ⟨rLockerHandler.ctor, ⟨rLocker.pending T d, ⟨some ⟨true⟩, A⟩⟩⟩).res = .ok () ∧
      (rBlocker.Wait E T true ⟨rLocker.pending T d, ⟨some ⟨true⟩, A⟩⟩).res = .blocked ∧
      (rBlocker.Wait E T true ⟨rLocker.pending T d, ⟨some ⟨true⟩, A⟩⟩).st
        = ⟨rLocker.pending T d, ⟨some ⟨true⟩, A⟩⟩ ∧
      rBlocker.signalCalls
        (rBlocker.Wait E T true ⟨rLocker.pending T d, ⟨some ⟨true⟩, A⟩⟩).calls = [.Lock]) := by
  obtain ⟨cs1, h1⟩ := rLockerHandler_Init_pending E T hT d hd
  obtain ⟨cs2, h2⟩ := rLockerHandler_reset_pending E T d hd
  obtain ⟨cs3, h3⟩ := rLockerHandler_Unlock_pending E T d hd
  refine ⟨?_, ?_⟩
  · simp [rBlocker.Wait, rBlocker.WaitArm, rBlocker.scopeExit, rBlocker.onHandler,
      h1, h2, hA, hAT, Step.bind, Step.raise, Step.lift, Step.atExit]
  · have hg := rBlocker_signalCalls_gate
    simp [rBlocker.Wait, rBlocker.WaitArm, rBlocker.WaitResume, rBlocker.onHandler,
      rBlocker.inFrame, rBlocker.onCore, h1, h3, hA,
      rCore_.Lock, rCore_.Test_, rCore_.onMutex, mtx.Lock,
      Step.bind, Step.ret, Step.raise, Step.lift, Step.atExit, rBlocker_signalCalls_append, hg]
    simp [rBlocker.signalCalls]

/-- Claim C8. On an armed `rBlocker` (mutex of `Core_` locked, recorded waiting
thread `A`, not `Undefined`) a `Wait( false )` called by another thread `T`
makes no call on the mutex of `Core_` and leaves `Core_` as it was, in every
state `g` of the locker `Locker_`. When the caller can take `Locker_` (it is
free, or held `d` times by `T` itself, below `CounterMax_`) the call raises the
framework error `qRFwk` and the whole blocker is as on entry, `Locker_` with
the owner and the counter it had. With `IgnoreTarget` true the same call
raises nothing: its first part returns, and the call is suspended at the
second `Core_.Lock()`, the only call made on the mutex of `Core_`, with the
blocker as on entry. With `Locker_` free the calls are listed in full. -/
theorem rBlocker_Wait_other (E : Env) (T A : sTID) (g : rLocker) (d : Nat)
    (hT : T ≠ Undefined) (hA : A ≠ Undefined) (hAT : A ≠ T) (hd : d < CounterMax_ E) :
    ((rBlocker.Wait E T false ⟨g, ⟨some ⟨true⟩, A⟩⟩).res ≠ .ok () ∧
      (rBlocker.Wait E T false ⟨g, ⟨some ⟨true⟩, A⟩⟩).st.Core_ = ⟨some ⟨true⟩, A⟩ ∧
      rBlocker.signalCalls (rBlocker.Wait E T false ⟨g, ⟨some ⟨true⟩, A⟩⟩).calls = []) ∧
    ((rBlocker.Wait E T false ⟨rLocker.pending T d, ⟨some ⟨true⟩, A⟩⟩).res = .raised .Fwk ∧
      (rBlocker.Wait E T false ⟨rLocker.pending T d, ⟨some ⟨true⟩, A⟩⟩).st
        = ⟨rLocker.pending T d, ⟨some ⟨true⟩, A⟩⟩) ∧
    ((rBlocker.WaitArm E T true
        ⟨rLockerHandler.ctor, ⟨rLocker.pending T d, ⟨some ⟨true⟩, A⟩⟩⟩).res = .ok () ∧
      (rBlocker.Wait E T true ⟨rLocker.pending T d, ⟨some ⟨true⟩, A⟩⟩).res = .blocked ∧
      (rBlocker.Wait E T true ⟨rLocker.pending T d, ⟨some ⟨true⟩, A⟩⟩).st
        = ⟨rLocker.pending T d, ⟨some ⟨true⟩, A⟩⟩ ∧
      rBlocker.signalCalls
        (rBlocker.Wait E T true ⟨rLocker.pending T d, ⟨some ⟨true⟩, A⟩⟩).calls = [.Lock]) ∧
    rBlocker.Wait E T false (rBlocker.armed A)
      = ⟨.raised .Fwk, rBlocker.armed A, [(.gate, .Lock), (.gate, .Unlock)]⟩ ∧
    rBlocker.WaitArm E T true ⟨rLockerHandler.ctor, rBlocker.armed A⟩
      = ⟨.ok (), ⟨⟨true, false⟩, rBlocker.armed A⟩, [(.gate, .Lock), (.gate, .Unlock)]⟩ ∧
    rBlocker.Wait E T true (rBlocker.armed A)
      = ⟨.blocked, rBlocker.armed A, [(.gate, .Lock), (.gate, .Unlock), (.signal, .Lock)]⟩ := by
  obtain ⟨p1, p2⟩ := rBlocker_Wait_stranger_pending E T A d hT hA hAT hd
  refine ⟨rBlocker_Wait_stranger_any E T ⟨g, ⟨some ⟨true⟩, A⟩⟩ hA hAT, p1, p2, ?_, ?_, ?_⟩
  · simp [rBlocker.Wait, rBlocker.WaitArm, rBlocker.scopeExit, rBlocker.onHandler,
      rBlocker.armed, rLockerHandler_Init_eq E T hT, rLockerHandler_reset_held_eq, hA, hAT,
      Step.bind, Step.raise, Step.lift, Step.atExit]
  · simp [rBlocker.WaitArm, rBlocker.onHandler, rBlocker.armed,
      rLockerHandler_Init_eq E T hT, rLockerHandler_Unlock_eq, hA,
      Step.bind, Step.ret, Step.raise, Step.lift]
  · simp [rBlocker.Wait, rBlocker.WaitArm, rBlocker.WaitResume, rBlocker.onHandler,
      rBlocker.inFrame, rBlocker.onCore, rBlocker.armed,
      rLockerHandler_Init_eq E T hT, rLockerHandler_Unlock_eq, hA,
      rCore_.Lock, rCore_.Test_, rCore_.onMutex, mtx.Lock,
      Step.bind, Step.ret, Step.raise, Step.lift, Step.atExit]

theorem rBlocker_Wait_other_witness :
    rBlocker.Wait Env.u32 2 false (rBlocker.armed 1)
        = ⟨.raised .Fwk, rBlocker.armed 1, [(.gate, .Lock), (.gate, .Unlock)]⟩ ∧
      rBlocker.Wait Env.u32 2 true (rBlocker.armed 1)
        = ⟨.blocked, rBlocker.armed 1,
            [(.gate, .Lock), (.gate, .Unlock), (.signal, .Lock)]⟩ :=
  have h := rBlocker_Wait_other Env.u32 2 1 rLocker.free 0 (by decide) (by decide)
    (by decide) (by decide)
  ⟨h.2.2.2.1, h.2.2.2.2.2⟩

theorem rBlocker_Unblock_none (E : Env) (B : sTID) (hB : B ≠ Undefined) (ig k : Bool) :
    rBlocker.Unblock E B ig ⟨rLocker.free, ⟨some ⟨k⟩, Undefined⟩⟩
      = ⟨.ok (), ⟨rLocker.free, ⟨some ⟨k⟩, Undefined⟩⟩, [(.gate, .Lock), (.gate, .Unlock)]⟩ := by
  have hc : (!ig && decide (Undefined = B)) = false := by simp [Ne.symm hB]
  simp [rBlocker.Unblock, rBlocker.UnblockBody, rBlocker.scopeExit, rBlocker.onHandler,
    rLockerHandler_Init_eq E B hB, rLockerHandler_reset_held_eq, hc,
    Step.bind, Step.ret, Step.raise, Step.lift, Step.atExit]

theorem rBlocker_Unblock_some (E : Env) (B X : sTID) (hB : B ≠ Undefined) (ig k : Bool)
    (hX : X ≠ Undefined) (hBX : ig = true ∨ X ≠ B) :
    rBlocker.Unblock E B ig ⟨rLocker.free, ⟨some ⟨k⟩, X⟩⟩
      = ⟨if k = false ∧ E.strictUnlock = true then .raised .Fwk else .ok (),
          rBlocker.released X, [(.gate, .Lock), (.signal, .Unlock), (.gate, .Unlock)]⟩ := by
  have hc : (!ig && decide (X = B)) = false := by
    rcases hBX with h | h
    · simp [h]
    · simp [h]
  cases k <;> cases hs : E.strictUnlock <;>
    simp [rBlocker.Unblock, rBlocker.UnblockBody, rBlocker.scopeExit, rBlocker.onHandler,
      rBlocker.inFrame, rBlocker.onCore, rBlocker.released,
      rLockerHandler_Init_eq E B hB, rLockerHandler_reset_held_eq, hc, hX, hs,
      rCore_.Unlock, rCore_.Test_, rCore_.onMutex, mtx.Unlock,
      Step.bind, Step.ret, Step.raise, Step.lift, Step.atExit]

/-- Claim C9, as amended. On an initialised `rBlocker` whose locker `Locker_`
is free, two calls of `Unblock` in a row by a thread `B` allowed to unblock
it (`IgnoreTarget` true, or `B` not the recorded waiting thread) leave after
the second call the state the first call left. When no waiting thread is
recorded, neither call makes a call on the mutex of `Core_` and the blocker is
unchanged. When a waiting thread `X` is recorded, the first call releases the
mutex of `Core_` and leaves `X` recorded (`Unblock` never clears the recorded
thread, so the state is not UNARMED), and the second call finds `X` still
recorded and calls `mtx::Unlock` on the mutex of `Core_` again, now not locked:
it returns where the library lets that pass and raises `qRFwk` where the
library rejects it. -/
theorem rBlocker_Unblock_twice (E : Env) (B X : sTID) (ig k : Bool)
    (hB : B ≠ Undefined) (hBX : ig = true ∨ X ≠ B) :
    (rBlocker.Unblock E B ig (rBlocker.Unblock E B ig ⟨rLocker.free, ⟨some ⟨k⟩, X⟩⟩).st).st
        = (rBlocker.Unblock E B ig ⟨rLocker.free, ⟨some ⟨k⟩, X⟩⟩).st ∧
      (X = Undefined →
        rBlocker.Unblock E B ig ⟨rLocker.free, ⟨some ⟨k⟩, X⟩⟩
          = ⟨.ok (), ⟨rLocker.free, ⟨some ⟨k⟩, X⟩⟩, [(.gate, .Lock), (.gate, .Unlock)]⟩ ∧
        rBlocker.Unblock E B ig (rBlocker.Unblock E B ig ⟨rLocker.free, ⟨some ⟨k⟩, X⟩⟩).st
          = ⟨.ok (), ⟨rLocker.free, ⟨some ⟨k⟩, X⟩⟩, [(.gate, .Lock), (.gate, .Unlock)]⟩) ∧
      (X ≠ Undefined →
        (k = true → (rBlocker.Unblock E B ig ⟨rLocker.free, ⟨some ⟨k⟩, X⟩⟩).res = .ok ()) ∧
        (rBlocker.Unblock E B ig ⟨rLocker.free, ⟨some ⟨k⟩, X⟩⟩).st
          = ⟨rLocker.free, ⟨some ⟨false⟩, X⟩⟩ ∧
        rBlocker.signalCalls (rBlocker.Unblock E B ig ⟨rLocker.free, ⟨some ⟨k⟩, X⟩⟩).calls
          = [.Unlock] ∧
        rBlocker.signalCalls (rBlocker.Unblock E B ig
          (rBlocker.Unblock E B ig ⟨rLocker.free, ⟨some ⟨k⟩, X⟩⟩).st).calls = [.Unlock] ∧
        (rBlocker.Unblock E B ig
          (rBlocker.Unblock E B ig ⟨rLocker.free, ⟨some ⟨k⟩, X⟩⟩).st).res
            = if E.strictUnlock = true then .raised .Fwk else .ok ()) := by
  by_cases hX : X = Undefined
  · subst hX
    have h := rBlocker_Unblock_none E B hB ig k
    simp only [h, true_and, and_self, ne_eq, not_true_eq_false, false_implies, and_true,
      implies_true]
  · have h1 := rBlocker_Unblock_some E B X hB ig k hX hBX
    have h2 := rBlocker_Unblock_some E B X hB ig false hX hBX
    simp only [rBlocker.released] at h1 h2
    simp only [h1, h2, hX, false_implies, true_and, ne_eq, not_false_eq_true, true_implies]
    refine ⟨?_, ?_, ?_, ?_⟩
    · intro hk
      simp [hk]
    · simp [rBlocker.signalCalls]
    · simp [rBlocker.signalCalls]
    · simp

theorem rBlocker_Unblock_twice_witness :
    (rBlocker.Unblock Env.u32 2 false (rBlocker.Unblock Env.u32 2 false
        ⟨rLocker.free, ⟨some ⟨true⟩, 1⟩⟩).st).st
      = (rBlocker.Unblock Env.u32 2 false ⟨rLocker.free, ⟨some ⟨true⟩, 1⟩⟩).st :=
  (rBlocker_Unblock_twice Env.u32 2 1 false true (by decide) (Or.inr (by decide))).1

/-- Claim C9 fails as stated. Thread 1 initialises a blocker without skipping
the prefetch, which arms it in its name; thread 2 calls `Unblock` twice. The
first call returns and leaves thread 1 recorded: the state is not UNARMED. The
second call makes one call on the mutex of `Core_`, `mtx::Unlock`, and raises
`qRFwk` where the library rejects the release of a mutex that is not locked. -/
theorem rBlocker_second_Unblock_releases :
    (rBlocker.Init 1 false rBlocker.ctor).res = .ok () ∧
      (rBlocker.Init 1 false rBlocker.ctor).st = rBlocker.armed 1 ∧
      (rBlocker.Unblock Env.u32 2 false (rBlocker.armed 1)).res = .ok () ∧
      (rBlocker.Unblock Env.u32 2 false (rBlocker.armed 1)).st ≠ rBlocker.unarmed ∧
      (rBlocker.Unblock Env.u32 2 false (rBlocker.armed 1)).st.Core_.ThreadID = 1 ∧
      rBlocker.signalCalls (rBlocker.Unblock Env.u32 2 false
        (rBlocker.Unblock Env.u32 2 false (rBlocker.armed 1)).st).calls = [.Unlock] ∧
      (rBlocker.Unblock Env.u32strict 2 false
        (rBlocker.Unblock Env.u32strict 2 false (rBlocker.armed 1)).st).res
          = .raised .Fwk := by
  decide

theorem Step_bind_ok_inv {κ σ α β : Type} (r : Step κ σ α) (f : σ → α → Step κ σ β) (b : β)
    (h : (r.bind f).res = .ok b) :
    ∃ a, r.res = .ok a ∧ (f r.st a).res = .ok b ∧ (r.bind f).st = (f r.st a).st := by
  cases hr : r.res with
  | ok a => exact ⟨a, rfl, by simpa [Step.bind, hr] using h, by simp [Step.bind, hr]⟩
  | raised e => simp [Step.bind, hr] at h
  | blocked => simp [Step.bind, hr] at h

theorem Step_atExit_ok_inv {κ σ α : Type} (r : Step κ σ α) (d : σ → Step κ σ Unit) (a : α)
    (h : (r.atExit d).res = .ok a) :
    r.res = .ok a ∧ (r.atExit d).st = (d r.st).st := by
  cases hr : r.res with
  | ok a2 =>
    cases hd : (d r.st).res with
    | ok u => simp [Step.atExit, hr, hd] at h ⊢; exact h
    | raised e => simp [Step.atExit, hr, hd] at h
    | blocked => simp [Step.atExit, hr, hd] at h
  | raised e => simp [Step.atExit, hr] at h
  | blocked =>
    have : (r.atExit d) = r := by simp [Step.atExit, hr]
    rw [this, hr] at h
    cases h

theorem rCore_Unlock_ok (E : Env) (c : rCore_) (h : (rCore_.Unlock E c).res = .ok ()) :
    (rCore_.Unlock E c).st = ⟨some ⟨false⟩, c.ThreadID⟩ := by
  rcases c with ⟨m, t⟩
  cases m with
  | none => simp [rCore_.Unlock, rCore_.Test_, Step.bind, Step.raise] at h
  | some m =>
    rcases m with ⟨k⟩
    cases k <;> cases hs : E.strictUnlock <;>
      simp_all [rCore_.Unlock, rCore_.Test_, rCore_.onMutex, mtx.Unlock, Step.bind, Step.ret,
        Step.lift]

/-- When the second part of `Wait` returns, the mutex of `Core_` is not locked
and no waiting thread is recorded, whatever the state it started from. -/
theorem rBlocker_WaitResume_ok (E : Env) (T : sTID) (fr : Frame)
    (h : (rBlocker.WaitResume E T fr).res = .ok ()) :
    (rBlocker.WaitResume E T fr).st.B.Core_ = ⟨some ⟨false⟩, Undefined⟩ := by
  unfold rBlocker.WaitResume at h ⊢
  obtain ⟨a1, _, h1, e1⟩ := Step_bind_ok_inv _ _ _ h
  obtain ⟨a2, _, h2, e2⟩ := Step_bind_ok_inv _ _ _ h1
  rw [e1, e2]
  have hu := rCore_Unlock_ok E _ (by simpa [rBlocker.inFrame, rBlocker.onCore, Step.lift] using h2)
  simp only [rBlocker.inFrame, rBlocker.onCore, Step.lift] at hu ⊢
  rw [hu]

theorem rBlocker_WaitFinish_ok (E : Env) (T : sTID) (fr : Frame)
    (h : (rBlocker.WaitFinish E T fr).res = .ok ()) :
    (rBlocker.WaitFinish E T fr).st.Core_ = ⟨some ⟨false⟩, Undefined⟩ := by
  unfold rBlocker.WaitFinish at h ⊢
  simp only [Step.lift] at h ⊢
  obtain ⟨h1, e1⟩ := Step_atExit_ok_inv _ _ _ h
  rw [e1, rBlocker.scopeExit, rBlocker_onHandler_Core]
  exact rBlocker_WaitResume_ok E T fr h1

theorem rBlocker_Wait_ok (E : Env) (T : sTID) (ig : Bool) (b : rBlocker)
    (h : (rBlocker.Wait E T ig b).res = .ok ()) :
    (rBlocker.Wait E T ig b).st.Core_ = ⟨some ⟨false⟩, Undefined⟩ := by
  unfold rBlocker.Wait at h ⊢
  simp only [Step.lift] at h ⊢
  obtain ⟨h1, e1⟩ := Step_atExit_ok_inv _ _ _ h
  obtain ⟨a1, _, h2, e2⟩ := Step_bind_ok_inv _ _ _ h1
  rw [e1, rBlocker.scopeExit, rBlocker_onHandler_Core, e2]
  exact rBlocker_WaitResume_ok E T _ h2

/-- What `Wait` can leave in `Core_` when the locker `Locker_` is free on
entry: `Core_` as it was, or armed in the caller's name from the state
UNARMED, or not locked with no waiting thread; the last case listed is the
entry state with a locked mutex and no waiting thread. -/
theorem rBlocker_Wait_Core_cases (E : Env) (T : sTID) (hT : T ≠ Undefined) (ig : Bool)
    (m : Option mtx.Mutex) (X : sTID) :
    (rBlocker.Wait E T ig ⟨rLocker.free, ⟨m, X⟩⟩).st.Core_ = ⟨m, X⟩ ∨
      (m = some ⟨false⟩ ∧ X = Undefined ∧
        (rBlocker.Wait E T ig ⟨rLocker.free, ⟨m, X⟩⟩).st.Core_ = ⟨some ⟨true⟩, T⟩) ∨
      (rBlocker.Wait E T ig ⟨rLocker.free, ⟨m, X⟩⟩).st.Core_ = ⟨some ⟨false⟩, Undefined⟩ ∨
      (m = some ⟨true⟩ ∧ X = Undefined) := by
  by_cases hX : X = Undefined
  · subst hX
    rcases m with _ | ⟨⟨_ | _⟩⟩
    · left
      simp [rBlocker.Wait, rBlocker.WaitArm, rBlocker.scopeExit, rBlocker.onHandler,
        rBlocker.inFrame, rBlocker.onCore, rLockerHandler_Init_eq E T hT,
        rLockerHandler_reset_held_eq, rCore_.Lock, rCore_.Test_,
        Step.bind, Step.ret, Step.raise, Step.lift, Step.atExit]
    · right; left
      have h := rBlocker_Wait_unarmed E T hT ig
      simp only [rBlocker.unarmed] at h
      simp [h, rBlocker.armed]
    · right; right; right
      exact ⟨rfl, rfl⟩
  · by_cases hg : ig = false ∧ X ≠ T
    · left
      obtain ⟨hi, hXT⟩ := hg
      subst hi
      simp [rBlocker.Wait, rBlocker.WaitArm, rBlocker.scopeExit, rBlocker.onHandler,
        rLockerHandler_Init_eq E T hT, rLockerHandler_reset_held_eq, hX, hXT,
        Step.bind, Step.ret, Step.raise, Step.lift, Step.atExit]
    · have harm : rBlocker.WaitArm E T ig ⟨rLockerHandler.ctor, ⟨rLocker.free, ⟨m, X⟩⟩⟩
          = ⟨.ok (), ⟨⟨true, false⟩, ⟨rLocker.free, ⟨m, X⟩⟩⟩,
              [(.gate, .Lock), (.gate, .Unlock)]⟩ := by
        have hg2 : ¬(ig = false ∧ ¬X = T) := hg
        simp [rBlocker.WaitArm, rBlocker.onHandler, rLockerHandler_Init_eq E T hT,
          rLockerHandler_Unlock_eq, hX, hg2, Step.bind, Step.ret, Step.raise, Step.lift]
      rcases m with _ | ⟨⟨_ | _⟩⟩
      · left
        simp [rBlocker.Wait, harm, rBlocker.WaitResume, rBlocker.scopeExit, rBlocker.onHandler,
          rBlocker.inFrame, rBlocker.onCore, rLockerHandler_reset_idle_eq,
          rCore_.Lock, rCore_.Test_, Step.bind, Step.ret, Step.raise, Step.lift, Step.atExit]
      · right; right; left
        simp [rBlocker.Wait, harm, rBlocker.WaitResume, rBlocker.scopeExit, rBlocker.onHandler,
          rBlocker.inFrame, rBlocker.onCore, rLockerHandler_Lock_eq E T hT,
          rLockerHandler_reset_held_eq, rCore_.Lock, rCore_.Unlock, rCore_.Test_,
          rCore_.onMutex, mtx.Lock, mtx.Unlock,
          Step.bind, Step.ret, Step.raise, Step.lift, Step.atExit]
      · left
        simp [rBlocker.Wait, harm, rBlocker.WaitResume, rBlocker.scopeExit, rBlocker.onHandler,
          rBlocker.inFrame, rBlocker.onCore, rCore_.Lock, rCore_.Test_, rCore_.onMutex,
          mtx.Lock, Step.bind, Step.ret, Step.raise, Step.lift, Step.atExit]

theorem rBlocker_Init_eq (T : sTID) (skip : Bool) (b : rBlocker) :
    (rBlocker.Init T skip b).res = .ok () ∧
      (rBlocker.Init T skip b).st = if skip then rBlocker.unarmed else rBlocker.armed T := by
  rcases b with ⟨⟨⟨m1, t1⟩, n⟩, ⟨m2, t2⟩⟩
  cases skip <;> cases m1 <;> cases m2 <;>
    simp [rBlocker.Init, rBlocker.onLocker, rBlocker.onCore, rLocker.Init, rLocker.onCore,
      rCore_.Init, rCore_.Release_, rCore_.Lock, rCore_.Test_, rCore_.onMutex, mtx.Lock,
      mtx.Create, Step.bind, Step.ret, Step.lift, rBlocker.unarmed, rBlocker.armed,
      rLocker.free]

/-- What `Unblock` can leave in `Core_` when the locker `Locker_` is free on
entry: `Core_` as it was, or its mutex released and the recorded thread kept. -/
theorem rBlocker_Unblock_Core_cases (E : Env) (T : sTID) (hT : T ≠ Undefined) (ig : Bool)
    (m : Option mtx.Mutex) (X : sTID) :
    (rBlocker.Unblock E T ig ⟨rLocker.free, ⟨m, X⟩⟩).st = ⟨rLocker.free, ⟨m, X⟩⟩ ∨
      (rBlocker.Unblock E T ig ⟨rLocker.free, ⟨m, X⟩⟩).st
        = ⟨rLocker.free, ⟨some ⟨false⟩, X⟩⟩ := by
  by_cases hg : ig = false ∧ X = T
  · left
    obtain ⟨hi, hXT⟩ := hg
    subst hi
    simp [rBlocker.Unblock, rBlocker.UnblockBody, rBlocker.scopeExit, rBlocker.onHandler,
      rLockerHandler_Init_eq E T hT, rLockerHandler_reset_held_eq, hXT,
      Step.bind, Step.ret, Step.raise, Step.lift, Step.atExit]
  · by_cases hX : X = Undefined
    · left
      subst hX
      have hne : ¬(ig = false ∧ Undefined = T) := fun h => hT h.2.symm
      simp [rBlocker.Unblock, rBlocker.UnblockBody, rBlocker.scopeExit, rBlocker.onHandler,
        rLockerHandler_Init_eq E T hT, rLockerHandler_reset_held_eq, hne,
        Step.bind, Step.ret, Step.raise, Step.lift, Step.atExit]
    · rcases m with _ | ⟨⟨k⟩⟩
      · left
        simp [rBlocker.Unblock, rBlocker.UnblockBody, rBlocker.scopeExit, rBlocker.onHandler,
          rBlocker.inFrame, rBlocker.onCore, rLockerHandler_Init_eq E T hT,
          rLockerHandler_reset_held_eq, hX, hg, rCore_.Unlock, rCore_.Test_,
          Step.bind, Step.ret, Step.raise, Step.lift, Step.atExit]
      · right
        have hBX : ig = true ∨ X ≠ T := by
          cases ig
          · right
            intro e
            exact hg ⟨rfl, e⟩
          · left; rfl
        rw [rBlocker_Unblock_some E T X hT ig k hX hBX]
        rfl

/-- Claim C10, as amended. The invariant "the mutex of `Core_` is locked
exactly when a waiting thread is recorded" holds after `Init`, with either
value of `SkipPrefetching`. It holds after every `Wait` that returns, whatever
the state the call or its second part started from, and a `Wait` called with
the invariant satisfied and the locker `Locker_` free leaves it satisfied
however the call ends. An `Unblock` that finds no waiting thread, or that is
called with `IgnoreTarget` false by the recorded waiting thread itself, leaves
the blocker as it was. An `Unblock` that returns on an armed blocker releases
the mutex and keeps the recorded thread: the invariant does not hold then,
until the `Wait` of that thread returns. What every `Unblock` and every `Wait`
preserves is one direction: when the mutex of `Core_` is locked, a waiting
thread is recorded. -/
theorem rBlocker_SignalInv_kept (E : Env) (T : sTID) (ig skip : Bool) (b0 b : rBlocker)
    (fr : Frame) (c : rCore_) (X : sTID) (hT : T ≠ Undefined) :
    rBlocker.SignalInv (rBlocker.Init T skip b0).st.Core_ ∧
      ((rBlocker.Wait E T ig b).res = .ok () →
        rBlocker.SignalInv (rBlocker.Wait E T ig b).st.Core_) ∧
      ((rBlocker.WaitFinish E T fr).res = .ok () →
        rBlocker.SignalInv (rBlocker.WaitFinish E T fr).st.Core_) ∧
      (rBlocker.SignalInv c →
        rBlocker.SignalInv (rBlocker.Wait E T ig ⟨rLocker.free, c⟩).st.Core_) ∧
      (c.ThreadID = Undefined ∨ (ig = false ∧ c.ThreadID = T) →
        (rBlocker.Unblock E T ig ⟨rLocker.free, c⟩).st = ⟨rLocker.free, c⟩) ∧
      (X ≠ Undefined → (ig = true ∨ X ≠ T) →
        (rBlocker.Unblock E T ig (rBlocker.armed X)).res = .ok () ∧
        (rBlocker.Unblock E T ig (rBlocker.armed X)).st.Core_ = ⟨some ⟨false⟩, X⟩ ∧
        ¬ rBlocker.SignalInv (rBlocker.Unblock E T ig (rBlocker.armed X)).st.Core_) ∧
      (rBlocker.LockedHasWaiter c →
        rBlocker.LockedHasWaiter (rBlocker.Unblock E T ig ⟨rLocker.free, c⟩).st.Core_ ∧
        rBlocker.LockedHasWaiter (rBlocker.Wait E T ig ⟨rLocker.free, c⟩).st.Core_) := by
  refine ⟨?_, ?_, ?_, ?_, ?_, ?_, ?_⟩
  · rw [(rBlocker_Init_eq T skip b0).2]
    cases skip <;> simp [rBlocker.SignalInv, rBlocker.unarmed, rBlocker.armed, hT]
  · intro h
    rw [rBlocker_Wait_ok E T ig b h]
    simp [rBlocker.SignalInv]
  · intro h
    rw [rBlocker_WaitFinish_ok E T fr h]
    simp [rBlocker.SignalInv]
  · intro hc
    rcases c with ⟨m, Y⟩
    rcases rBlocker_Wait_Core_cases E T hT ig m Y with h | ⟨_, _, h⟩ | h | ⟨h1, h2⟩
    · rw [h]; exact hc
    · rw [h]; simp [rBlocker.SignalInv, hT]
    · rw [h]; simp [rBlocker.SignalInv]
    · subst h1 h2
      simp [rBlocker.SignalInv] at hc
  · intro h
    rcases c with ⟨m, Y⟩
    simp only at h
    rcases h with h | ⟨hi, h⟩
    · subst h
      have hne : ¬(ig = false ∧ Undefined = T) := fun h => hT h.2.symm
      simp [rBlocker.Unblock, rBlocker.UnblockBody, rBlocker.scopeExit, rBlocker.onHandler,
        rLockerHandler_Init_eq E T hT, rLockerHandler_reset_held_eq, hne,
        Step.bind, Step.ret, Step.raise, Step.lift, Step.atExit]
    · subst hi h
      exact congrArg Step.st (rBlocker_Unblock_by_waiter_eq E Y ⟨m, Y⟩ hT rfl)
  · intro hX hg
    have h := rBlocker_Unblock_armed E X T hT ig hg hX
    rw [h]
    simp [rBlocker.released, rBlocker.SignalInv, hX]
  · intro hc
    rcases c with ⟨m, Y⟩
    constructor
    · rcases rBlocker_Unblock_Core_cases E T hT ig m Y with h | h
      · rw [h]; exact hc
      · rw [h]; simp [rBlocker.LockedHasWaiter]
    · rcases rBlocker_Wait_Core_cases E T hT ig m Y with h | ⟨_, _, h⟩ | h | ⟨h1, h2⟩
      · rw [h]; exact hc
      · rw [h]; simp [rBlocker.LockedHasWaiter, hT]
      · rw [h]; simp [rBlocker.LockedHasWaiter]
      · subst h1 h2
        simp [rBlocker.LockedHasWaiter] at hc

theorem rBlocker_SignalInv_kept_witness :
    rBlocker.SignalInv (rBlocker.Init 1 false rBlocker.ctor).st.Core_ ∧
      rBlocker.SignalInv (rBlocker.Wait Env.u32 2 false
        ⟨rLocker.free, ⟨some ⟨true⟩, 1⟩⟩).st.Core_ ∧
      rBlocker.LockedHasWaiter (rBlocker.Unblock Env.u32 2 false
        ⟨rLocker.free, ⟨some ⟨true⟩, 1⟩⟩).st.Core_ :=
  have h := rBlocker_SignalInv_kept Env.u32 1 false false rBlocker.ctor rBlocker.unarmed
    ⟨rLockerHandler.ctor, rBlocker.unarmed⟩ ⟨some ⟨true⟩, 1⟩ 1 (by decide)
  have h2 := rBlocker_SignalInv_kept Env.u32 2 false false rBlocker.ctor rBlocker.unarmed
    ⟨rLockerHandler.ctor, rBlocker.unarmed⟩ ⟨some ⟨true⟩, 1⟩ 1 (by decide)
  ⟨h.1, h2.2.2.2.1 (by decide), (h2.2.2.2.2.2.2 (by decide)).1⟩

/-- Claim C10 fails as stated. Thread 1 initialises a blocker without skipping
the prefetch: the invariant holds. Thread 2 calls `Unblock`, which returns:
the mutex of `Core_` is then not locked while thread 1 is still recorded, and
the invariant does not hold. -/
theorem rBlocker_Unblock_breaks_SignalInv :
    (rBlocker.Init 1 false rBlocker.ctor).res = .ok () ∧
      rBlocker.SignalInv (rBlocker.Init 1 false rBlocker.ctor).st.Core_ ∧
      (rBlocker.Unblock Env.u32 2 false (rBlocker.Init 1 false rBlocker.ctor).st).res
        = .ok () ∧
      (rBlocker.Unblock Env.u32 2 false (rBlocker.Init 1 false rBlocker.ctor).st).st.Core_
        = ⟨some ⟨false⟩, 1⟩ ∧
      ¬ rBlocker.SignalInv
        (rBlocker.Unblock Env.u32 2 false (rBlocker.Init 1 false rBlocker.ctor).st).st.Core_ := by
  decide

/-! ## Initialisation of the blocker, the counter limit, the handler test -/

theorem rBlocker_Init_calls (T : sTID) (skip : Bool) (b : rBlocker) :
    rBlocker.signalCalls (rBlocker.Init T skip b).calls
      = (if b.Core_.Mutex_ = none then [] else [mtx.Call.Delete]) ++ [mtx.Call.Create]
          ++ (if skip then [] else [mtx.Call.Lock]) := by
  rcases b with ⟨⟨⟨m1, t1⟩, n⟩, ⟨m2, t2⟩⟩
  cases skip <;> cases m1 <;> cases m2 <;>
    simp [rBlocker.Init, rBlocker.onLocker, rBlocker.onCore, rLocker.Init, rLocker.onCore,
      rCore_.Init, rCore_.Release_, rCore_.Lock, rCore_.Test_, rCore_.onMutex, mtx.Lock,
      mtx.Create, Step.bind, Step.ret, Step.lift, rBlocker.signalCalls]

/-- Claim C11. Whatever the prior state `b` of an `rBlocker` and whatever the
calling thread `T`, `Init` returns. With `SkipPrefetching` true it leaves the
state UNARMED: the mutex of `Core_` not locked, no waiting thread recorded.
With `SkipPrefetching` false it leaves the state ARMED in the name of `T`: the
mutex of `Core_` locked, `T` recorded. In both cases the locker `Locker_` has a
mutex that is not locked, no owner and its counter at zero, and the mutex of
`Core_` is a new one: the calls made on it are the deletion of the former one
when there was one, the creation, and with `SkipPrefetching` false one
acquisition. -/
theorem rBlocker_Init_state (T : sTID) (b : rBlocker) :
    rBlocker.Init T true b
        = ⟨.ok (), ⟨⟨⟨some ⟨false⟩, Undefined⟩, 0⟩, ⟨some ⟨false⟩, Undefined⟩⟩,
            (rBlocker.Init T true b).calls⟩ ∧
      rBlocker.Init T false b
        = ⟨.ok (), ⟨⟨⟨some ⟨false⟩, Undefined⟩, 0⟩, ⟨some ⟨true⟩, T⟩⟩,
            (rBlocker.Init T false b).calls⟩ ∧
      rBlocker.signalCalls (rBlocker.Init T true b).calls
        = (if b.Core_.Mutex_ = none then [] else [mtx.Call.Delete]) ++ [mtx.Call.Create] ∧
      rBlocker.signalCalls (rBlocker.Init T false b).calls
        = (if b.Core_.Mutex_ = none then [] else [mtx.Call.Delete]) ++ [mtx.Call.Create]
            ++ [mtx.Call.Lock] := by
  obtain ⟨h1, h2⟩ := rBlocker_Init_eq T true b
  obtain ⟨h3, h4⟩ := rBlocker_Init_eq T false b
  have c1 := rBlocker_Init_calls T true b
  have c2 := rBlocker_Init_calls T false b
  simp only [if_true, List.append_nil] at c1
  simp only [Bool.false_eq_true, if_false] at c2
  refine ⟨?_, ?_, c1, c2⟩
  · have e : rBlocker.Init T true b
        = ⟨(rBlocker.Init T true b).res, (rBlocker.Init T true b).st,
            (rBlocker.Init T true b).calls⟩ := rfl
    rw [h1, h2] at e
    exact e
  · have e : rBlocker.Init T false b
        = ⟨(rBlocker.Init T false b).res, (rBlocker.Init T false b).st,
            (rBlocker.Init T false b).calls⟩ := rfl
    rw [h3, h4] at e
    exact e

/-- Lock by the owner with the counter at its maximum. -/
theorem rLocker_Lock_limit (E : Env) (T : sTID) (l : rLocker)
    (ho : l.Core_.ThreadID = T) (hc : l.Counter_ = CounterMax_ E) :
    rLocker.Lock E T l = ⟨.raised .Lmt, l, []⟩ := by
  simp [rLocker.Lock, ho, hc, Step.bind, Step.ret, Step.raise]

/-- Claim C12. When the counter of an `rLocker` is `CounterMax_` and the
recorded owner is the calling thread, `Lock` raises the limit error `qRLmt`
(not `qRFwk`), makes no call to the mutex library and leaves the whole locker
(counter, recorded owner, mutex) as it was. When the counter is below
`CounterMax_`, a `Lock` by the owner returns: it raises neither error, and the
new counter is the former one plus one, at most `CounterMax_`: it has not
wrapped. -/
theorem rLocker_Lock_at_limit (E : Env) (T : sTID) (l u : rLocker)
    (ho : l.Core_.ThreadID = T) (hc : l.Counter_ = CounterMax_ E)
    (hu : u.Core_.ThreadID = T) (hb : u.Counter_ < CounterMax_ E) :
    rLocker.Lock E T l = ⟨.raised .Lmt, l, []⟩ ∧
      (rLocker.Lock E T l).res ≠ .raised .Fwk ∧
      (rLocker.Lock E T u).res = .ok () ∧
      (rLocker.Lock E T u).st.Counter_ = u.Counter_ + 1 ∧
      (rLocker.Lock E T u).st.Counter_ ≤ CounterMax_ E := by
  have h1 := rLocker_Lock_limit E T l ho hc
  have h2 := rLocker_Lock_owner E T u hu hb
  rw [h1, h2]
  refine ⟨rfl, by simp, rfl, rfl, ?_⟩
  show u.Counter_ + 1 ≤ CounterMax_ E
  omega

theorem rLocker_Lock_at_limit_witness :
    rLocker.Lock Env.u32 7 (rLocker.held 7 4294967295)
        = ⟨.raised .Lmt, rLocker.held 7 4294967295, []⟩ ∧
      (rLocker.Lock Env.u32 7 (rLocker.held 7 4294967294)).st.Counter_ = 4294967294 + 1 :=
  have h := rLocker_Lock_at_limit Env.u32 7 (rLocker.held 7 4294967295)
    (rLocker.held 7 4294967294) (by decide) (by decide) (by decide) (by decide)
  ⟨h.1, h.2.2.2.1⟩

/-- Claim C13. On an `rCore_` whose handler is undefined (as the constructor
leaves it, and as `reset` leaves it after `Init`), each of `IsLocked`,
`TryToLock`, `Lock` and `Unlock` raises the framework error `qRFwk`, makes no
call to the mutex library and leaves the cell as it was. On an `rCore_` whose
handler designates a mutex `m`, `Test_` returns and each of the four functions
is exactly the call of the mutex library on `m`: `IsLocked`, `TryToLock` and
`Lock` never raise, and `Unlock` raises only when the mutex library itself
rejects the release of a mutex that is not locked. -/
theorem rCore_handle_required (E : Env) (c p : rCore_) (m : mtx.Mutex) (P : Bool)
    (hc : c.Mutex_ = none) (hp : p.Mutex_ = some m) :
    (rCore_.IsLocked c = ⟨.raised .Fwk, c, []⟩ ∧
      rCore_.TryToLock c = ⟨.raised .Fwk, c, []⟩ ∧
      rCore_.Lock c = ⟨.raised .Fwk, c, []⟩ ∧
      rCore_.Unlock E c = ⟨.raised .Fwk, c, []⟩) ∧
    (rCore_.ctor.Mutex_ = none ∧ (rCore_.reset P (rCore_.Init c).st).st.Mutex_ = none ∧
      (rCore_.Init c).st.Mutex_ = some ⟨false⟩) ∧
    (rCore_.Test_ p = ⟨.ok (), p, []⟩ ∧
      rCore_.IsLocked p = (mtx.IsLocked m).lift (fun m2 => { p with Mutex_ := some m2 }) id ∧
      rCore_.TryToLock p = (mtx.TryToLock m).lift (fun m2 => { p with Mutex_ := some m2 }) id ∧
      rCore_.Lock p = (mtx.Lock m).lift (fun m2 => { p with Mutex_ := some m2 }) id ∧
      rCore_.Unlock E p = (mtx.Unlock E m).lift (fun m2 => { p with Mutex_ := some m2 }) id) ∧
    ((∀ e, (rCore_.IsLocked p).res ≠ .raised e) ∧
      (∀ e, (rCore_.TryToLock p).res ≠ .raised e) ∧
      (∀ e, (rCore_.Lock p).res ≠ .raised e) ∧
      (∀ e, (rCore_.Unlock E p).res = .raised e → m.locked = false ∧ E.strictUnlock = true)) := by
  rcases c with ⟨mc, tc⟩
  rcases p with ⟨mp, tp⟩
  simp only at hc hp
  subst hc hp
  rcases m with ⟨k⟩
  refine ⟨?_, ?_, ?_, ?_⟩
  · simp [rCore_.IsLocked, rCore_.TryToLock, rCore_.Lock, rCore_.Unlock, rCore_.Test_,
      Step.bind, Step.raise]
  · cases P <;>
      simp [rCore_.ctor, rCore_.reset, rCore_.Init, rCore_.Release_, Step.bind, Step.ret,
        mtx.Create]
  · simp [rCore_.IsLocked, rCore_.TryToLock, rCore_.Lock, rCore_.Unlock, rCore_.Test_,
      rCore_.onMutex, Step.bind, Step.ret, Step.lift]
  · cases k <;> cases hs : E.strictUnlock <;>
      simp [rCore_.IsLocked, rCore_.TryToLock, rCore_.Lock, rCore_.Unlock, rCore_.Test_,
        rCore_.onMutex, mtx.IsLocked, mtx.TryToLock, mtx.Lock, mtx.Unlock, Step.bind,
        Step.ret, Step.lift, hs]

theorem rCore_handle_required_witness :
    rCore_.Lock rCore_.ctor = ⟨.raised .Fwk, rCore_.ctor, []⟩ ∧
      rCore_.Unlock Env.u32 rCore_.ctor = ⟨.raised .Fwk, rCore_.ctor, []⟩ ∧
      rCore_.Lock ⟨some ⟨false⟩, 0⟩ = ⟨.ok (), ⟨some ⟨true⟩, 0⟩, [.Lock]⟩ :=
  have h := rCore_handle_required Env.u32 rCore_.ctor ⟨some ⟨false⟩, 0⟩ ⟨false⟩ true rfl rfl
  ⟨h.1.2.2.1, h.1.2.2.2, h.2.2.1.2.2.2.1⟩

/-! ## The handler: `Unlock`, `Lock`, and the meaning of `Locked_` -/

/-- Unlock by the recorded owner of a locker whose mutex is locked returns. -/
theorem rLocker_Unlock_owner_ok (E : Env) (T : sTID) (l : rLocker)
    (ho : l.Core_.ThreadID = T) (hm : l.Core_.Mutex_ = some ⟨true⟩) :
    (rLocker.Unlock E T l).res = .ok () := by
  rcases l with ⟨⟨m, t⟩, n⟩
  simp only at ho hm
  subst ho hm
  by_cases h0 : (n + 2 ^ E.w - 1) % 2 ^ E.w = 0
  · simp [rLocker.Unlock, rLocker.onCore, rCore_.Unlock, rCore_.Test_, rCore_.onMutex,
      mtx.Unlock, Step.bind, Step.ret, Step.lift, h0]
  · simp [rLocker.Unlock, Step.bind, Step.ret, h0]

/-- Claim C14. On a handler that does not hold (`Locked_` false), `Unlock`
raises the error `qRGnr`, makes no call (the locker's `Unlock` is not called)
and leaves handler and locker (counter, owner, mutex) as they were. On a bound
handler that holds, used by the thread that owns the locker (mutex locked),
`Unlock` is one call of the locker's `Unlock`: the locker and the calls made
are those of that call, which returns, and the handler is left bound with
`Locked_` false. -/
theorem rLockerHandler_Unlock_contract (E : Env) (T : sTID) (g h : Guarded)
    (hg : g.H.Locked_ = false)
    (hb : h.H.Locker_ = true) (hh : h.H.Locked_ = true)
    (ho : h.L.Core_.ThreadID = T) (hm : h.L.Core_.Mutex_ = some ⟨true⟩) :
    rLockerHandler.Unlock E T g = ⟨.raised .Gnr, g, []⟩ ∧
      (rLocker.Unlock E T h.L).res = .ok () ∧
      rLockerHandler.Unlock E T h
        = ⟨.ok (), ⟨⟨true, false⟩, (rLocker.Unlock E T h.L).st⟩,
            (rLocker.Unlock E T h.L).calls⟩ := by
  have hu := rLocker_Unlock_owner_ok E T h.L ho hm
  rcases g with ⟨⟨gq, gp⟩, gl⟩
  rcases h with ⟨⟨hq, hp⟩, hl⟩
  simp only at hg hb hh hu
  subst hg hb hh
  refine ⟨?_, hu, ?_⟩
  · simp [rLockerHandler.Unlock, Step.bind, Step.raise]
  · simp [rLockerHandler.Unlock, rLockerHandler.L_, Step.bind, Step.ret, Step.lift, hu]

theorem rLockerHandler_Unlock_contract_witness :
    rLockerHandler.Unlock Env.u32 7 ⟨⟨true, false⟩, rLocker.free⟩
        = ⟨.raised .Gnr, ⟨⟨true, false⟩, rLocker.free⟩, []⟩ ∧
      rLockerHandler.Unlock Env.u32 7 ⟨⟨true, true⟩, rLocker.held 7 1⟩
        = ⟨.ok (), ⟨⟨true, false⟩, rLocker.free⟩, [.Unlock]⟩ :=
  have h := rLockerHandler_Unlock_contract Env.u32 7 ⟨⟨true, false⟩, rLocker.free⟩
    ⟨⟨true, true⟩, rLocker.held 7 1⟩ rfl rfl rfl rfl rfl
  ⟨h.1, h.2.2⟩

theorem rLockerHandler_Lock_holding (E : Env) (T : sTID) (g : Guarded)
    (hg : g.H.Locked_ = true) : rLockerHandler.Lock E T g = ⟨.ok (), g, []⟩ := by
  rcases g with ⟨⟨q, p⟩, l⟩
  simp only at hg
  subst hg
  simp [rLockerHandler.Lock, Step.bind, Step.ret]

theorem rLockerHandler_runAll_Locks (E : Env) (T : sTID) (g : Guarded)
    (hg : g.H.Locked_ = true) (n : Nat) :
    rLockerHandler.runAll E T (List.replicate n .Lock) g = ⟨.ok (), g, []⟩ := by
  induction n with
  | zero => simp [rLockerHandler.runAll, Step.ret]
  | succ n ih =>
    simp [List.replicate_succ, rLockerHandler.runAll, rLockerHandler.call,
      rLockerHandler_Lock_holding E T g hg, ih]

/-- Claim C15. On a handler that already holds (`Locked_` true), `Lock` returns
without any call: the locker's `Lock` is not called, and the locker (counter,
owner, mutex) and the handler are as they were. The same holds for any number
`n` of calls of `Lock` in a row. Hence after `Init` on a locker the thread can
take (`d` pending locks of the thread, below `CounterMax_`), any number of
calls of the handler's `Lock` leave the locker with exactly one lock more than
before `Init`. -/
theorem rLockerHandler_Lock_again (E : Env) (T : sTID) (g : Guarded) (n d : Nat)
    (hg : g.H.Locked_ = true) (hT : T ≠ Undefined) (hd : d < CounterMax_ E) :
    rLockerHandler.Lock E T g = ⟨.ok (), g, []⟩ ∧
      rLockerHandler.runAll E T (List.replicate n .Lock) g = ⟨.ok (), g, []⟩ ∧
      (rLockerHandler.Init E T ⟨rLockerHandler.ctor, rLocker.pending T d⟩).res = .ok () ∧
      (rLockerHandler.runAll E T (List.replicate n .Lock)
        (rLockerHandler.Init E T ⟨rLockerHandler.ctor, rLocker.pending T d⟩).st).st
          = ⟨⟨true, true⟩, rLocker.pending T (d + 1)⟩ ∧
      (rLockerHandler.runAll E T (List.replicate n .Lock)
        (rLockerHandler.Init E T ⟨rLockerHandler.ctor, rLocker.pending T d⟩).st).calls
          = [] := by
  obtain ⟨i1, i2⟩ := rLockerHandler_Init_fresh E T hT d hd
  have hr := rLockerHandler_runAll_Locks E T ⟨⟨true, true⟩, rLocker.pending T (d + 1)⟩ rfl n
  refine ⟨rLockerHandler_Lock_holding E T g hg, rLockerHandler_runAll_Locks E T g hg n, i1,
    ?_, ?_⟩
  · rw [i2, hr]
  · rw [i2, hr]

theorem rLockerHandler_Lock_again_witness :
    rLockerHandler.Lock Env.u32 7 ⟨⟨true, true⟩, rLocker.held 7 1⟩
        = ⟨.ok (), ⟨⟨true, true⟩, rLocker.held 7 1⟩, []⟩ ∧
      (rLockerHandler.runAll Env.u32 7 (List.replicate 3 .Lock)
        (rLockerHandler.Init Env.u32 7 ⟨rLockerHandler.ctor, rLocker.pending 7 0⟩).st).st
          = ⟨⟨true, true⟩, rLocker.pending 7 (0 + 1)⟩ :=
  have h := rLockerHandler_Lock_again Env.u32 7 ⟨⟨true, true⟩, rLocker.held 7 1⟩ 3 0 rfl
    (by decide) (by decide)
  ⟨h.1, h.2.2.2.1⟩

theorem rLocker_pending_Counter (T : sTID) (k : Nat) : (rLocker.pending T k).Counter_ = k := by
  by_cases h : k = 0
  · subst h; simp [rLocker.pending, rLocker.free]
  · simp [rLocker.pending, h, rLocker.held]

theorem rLockerHandler_reset_false_eq (E : Env) (T : sTID) (g : Guarded) :
    rLockerHandler.reset E T false g = ⟨.ok (), ⟨⟨false, false⟩, g.L⟩, []⟩ := by
  simp [rLockerHandler.reset, Step.bind, Step.ret]

/-- One call on a handler in one of three situations: holding (bound, `Locked_`
true, one more lock on the locker), idle (`Locked_` false, no lock more), or
forgotten (`k` true: null pointer, `Locked_` false, one more lock left on the
locker). The call does not suspend the thread and leaves one of the three;
the third is entered only by `reset( false )`. -/
theorem rLockerHandler_step_inv (E : Env) (T : sTID) (hT : T ≠ Undefined) (d : Nat)
    (hd : d < CounterMax_ E) (c : HandlerCall) (q p k : Bool)
    (h1 : p = true → q = true ∧ k = false) (h2 : k = true → q = false ∧ p = false) :
    ∃ q2 p2 k2 : Bool, (p2 = true → q2 = true ∧ k2 = false) ∧
      (k2 = true → q2 = false ∧ p2 = false) ∧
      (c ≠ .reset false → k = false → k2 = false) ∧
      (rLockerHandler.step E T c
        ⟨⟨q, p⟩, rLocker.pending T (d + p.toNat + k.toNat)⟩).res ≠ .blocked ∧
      (rLockerHandler.step E T c
        ⟨⟨q, p⟩, rLocker.pending T (d + p.toNat + k.toNat)⟩).st
        = ⟨⟨q2, p2⟩, rLocker.pending T (d + p2.toNat + k2.toNat)⟩ := by
  cases p with
  | true =>
    obtain ⟨hq1, hk1⟩ := h1 rfl
    subst hq1 hk1
    simp only [Bool.toNat_true, Bool.toNat_false, Nat.add_zero]
    cases c with
    | Lock =>
      refine ⟨true, true, false, by simp, by simp, by simp, ?_, ?_⟩ <;>
        simp [rLockerHandler.step, rLockerHandler.Lock, Step.bind, Step.ret]
    | Unlock =>
      obtain ⟨e1, e2⟩ := rLockerHandler_Unlock_held E T d hd
      refine ⟨true, false, false, by simp, by simp, by simp, ?_, ?_⟩
      · simp [rLockerHandler.step, e1]
      · simp [rLockerHandler.step, e2]
    | reset P =>
      cases P with
      | true =>
        obtain ⟨e1, e2⟩ := rLockerHandler_reset_any E T d hd true
        simp only [Bool.toNat_true] at e1 e2
        refine ⟨false, false, false, by simp, by simp, by simp, ?_, ?_⟩
        · simp [rLockerHandler.step, e1]
        · simp [rLockerHandler.step, e2]
      | false =>
        refine ⟨false, false, true, by simp, by simp, by simp, ?_, ?_⟩ <;>
          simp [rLockerHandler.step, rLockerHandler_reset_false_eq]
  | false =>
    cases k with
    | true =>
      obtain ⟨hq2, _⟩ := h2 rfl
      subst hq2
      simp only [Bool.toNat_true, Bool.toNat_false, Nat.add_zero]
      cases c with
      | Lock =>
        refine ⟨false, false, true, by simp, by simp, by simp, ?_, ?_⟩ <;>
          simp [rLockerHandler.step, rLockerHandler.Lock, rLockerHandler.L_, Step.bind,
            Step.raise]
      | Unlock =>
        refine ⟨false, false, true, by simp, by simp, by simp, ?_, ?_⟩ <;>
          simp [rLockerHandler.step, rLockerHandler_Unlock_idle]
      | reset P =>
        cases P with
        | true =>
          refine ⟨false, false, true, by simp, by simp, by simp, ?_, ?_⟩ <;>
            simp [rLockerHandler.step, rLockerHandler_reset_idle_eq]
        | false =>
          refine ⟨false, false, true, by simp, by simp, by simp, ?_, ?_⟩ <;>
            simp [rLockerHandler.step, rLockerHandler_reset_false_eq]
    | false =>
      simp only [Bool.toNat_false, Nat.add_zero]
      cases c with
      | Lock =>
        cases q with
        | true =>
          obtain ⟨e1, e2⟩ := rLockerHandler_Lock_free E T hT d hd false
          simp only [Bool.toNat_false, Nat.add_zero] at e1 e2
          refine ⟨true, true, false, by simp, by simp, by simp, ?_, ?_⟩
          · simp [rLockerHandler.step, e1]
          · simp [rLockerHandler.step, e2]
        | false =>
          refine ⟨false, false, false, by simp, by simp, by simp, ?_, ?_⟩ <;>
            simp [rLockerHandler.step, rLockerHandler.Lock, rLockerHandler.L_, Step.bind,
              Step.raise]
      | Unlock =>
        refine ⟨q, false, false, by simp, by simp, by simp, ?_, ?_⟩ <;>
          simp [rLockerHandler.step, rLockerHandler_Unlock_idle]
      | reset P =>
        cases P with
        | true =>
          refine ⟨false, false, false, by simp, by simp, by simp, ?_, ?_⟩ <;>
            simp [rLockerHandler.step, rLockerHandler_reset_idle_eq]
        | false =>
          refine ⟨false, false, false, by simp, by simp, by simp, ?_, ?_⟩ <;>
            simp [rLockerHandler.step, rLockerHandler_reset_false_eq]

theorem rLockerHandler_runCalls_inv (E : Env) (T : sTID) (hT : T ≠ Undefined) (d : Nat)
    (hd : d < CounterMax_ E) (cs : List HandlerCall) :
    ∀ q p k : Bool, (p = true → q = true ∧ k = false) → (k = true → q = false ∧ p = false) →
      ∃ q2 p2 k2 : Bool, (p2 = true → q2 = true ∧ k2 = false) ∧
        (k2 = true → q2 = false ∧ p2 = false) ∧
        ((∀ c ∈ cs, c ≠ HandlerCall.reset false) → k = false → k2 = false) ∧
        (rLockerHandler.runCalls E T cs
          ⟨⟨q, p⟩, rLocker.pending T (d + p.toNat + k.toNat)⟩).res = .ok () ∧
        (rLockerHandler.runCalls E T cs
          ⟨⟨q, p⟩, rLocker.pending T (d + p.toNat + k.toNat)⟩).st
          = ⟨⟨q2, p2⟩, rLocker.pending T (d + p2.toNat + k2.toNat)⟩ := by
  induction cs with
  | nil =>
    intro q p k h1 h2
    exact ⟨q, p, k, h1, h2, fun _ hk => hk, by simp [rLockerHandler.runCalls, Step.ret]⟩
  | cons c cs ih =>
    intro q p k h1 h2
    obtain ⟨q1, p1, k1, a1, a2, a3, hb, hs⟩ :=
      rLockerHandler_step_inv E T hT d hd c q p k h1 h2
    obtain ⟨q2, p2, k2, b1, b2, b3, r1, r2⟩ := ih q1 p1 k1 a1 a2
    refine ⟨q2, p2, k2, b1, b2, ?_, ?_⟩
    · intro hall hk
      exact b3 (fun x hx => hall x (List.mem_cons_of_mem c hx))
        (a3 (hall c (List.mem_cons_self c cs)) hk)
    · cases hr : (rLockerHandler.step E T c
          ⟨⟨q, p⟩, rLocker.pending T (d + p.toNat + k.toNat)⟩).res with
      | blocked => exact absurd hr hb
      | ok a => simp only [rLockerHandler.runCalls, hr, hs, r1, r2, and_self]
      | raised e => simp only [rLockerHandler.runCalls, hr, hs, r1, r2, and_self]

theorem rLockerHandler_Unlock_ok_flag (E : Env) (T : sTID) (g : Guarded)
    (h : (rLockerHandler.Unlock E T g).res = .ok ()) :
    (rLockerHandler.Unlock E T g).st.H.Locked_ = false := by
  unfold rLockerHandler.Unlock at h ⊢
  obtain ⟨a1, _, h1, e1⟩ := Step_bind_ok_inv _ _ _ h
  obtain ⟨a2, _, _, e2⟩ := Step_bind_ok_inv _ _ _ h1
  rw [e1, e2]
  rfl

theorem rLockerHandler_reset_ok_flag (E : Env) (T : sTID) (P : Bool) (g : Guarded)
    (h : (rLockerHandler.reset E T P g).res = .ok ()) :
    (rLockerHandler.reset E T P g).st.H = ⟨false, false⟩ := by
  unfold rLockerHandler.reset at h ⊢
  obtain ⟨a1, _, _, e1⟩ := Step_bind_ok_inv _ _ _ h
  rw [e1]
  rfl

/-- Claim C16, as amended. A handler is bound by `Init` to an initialised
locker the thread `T` can take (`d` pending locks of `T`, below `CounterMax_`)
and then used by `T` through any sequence `cs` of calls of `Lock`, `Unlock`
and `reset( P )`, some of which may raise. Every call returns or raises, and
whenever `Locked_` is true the locker holds exactly one more lock of `T` than
before `Init`; the locker never holds more than that one. When every `reset`
of the sequence is `reset()`, with `P` true, the converse holds too: `Locked_`
is true exactly when the counter is one higher than before `Init`, false
exactly when it is the same, and the destructor then gives the locker back as
it was before `Init`. `Locked_` is false after every `Unlock` that returns and
after every `reset( P )` that returns. `reset( false )` makes no call: it
clears the pointer and `Locked_` and leaves the locker as it is, so on a
handler that holds it leaves that lock on the locker. -/
theorem rLockerHandler_Locked_accurate (E : Env) (T : sTID) (d : Nat) (cs : List HandlerCall)
    (g : Guarded) (P : Bool) (hT : T ≠ Undefined) (hd : d < CounterMax_ E) :
    (rLockerHandler.Init E T ⟨rLockerHandler.ctor, rLocker.pending T d⟩).res = .ok () ∧
      (rLockerHandler.runCalls E T cs
        (rLockerHandler.Init E T ⟨rLockerHandler.ctor, rLocker.pending T d⟩).st).res
          = .ok () ∧
      ((rLockerHandler.runCalls E T cs
          (rLockerHandler.Init E T
            ⟨rLockerHandler.ctor, rLocker.pending T d⟩).st).st.H.Locked_ = true →
        (rLockerHandler.runCalls E T cs
          (rLockerHandler.Init E T ⟨rLockerHandler.ctor, rLocker.pending T d⟩).st).st.L
            = rLocker.pending T (d + 1)) ∧
      ((rLockerHandler.runCalls E T cs
          (rLockerHandler.Init E T ⟨rLockerHandler.ctor, rLocker.pending T d⟩).st).st.L
            = rLocker.pending T d ∨
        (rLockerHandler.runCalls E T cs
          (rLockerHandler.Init E T ⟨rLockerHandler.ctor, rLocker.pending T d⟩).st).st.L
            = rLocker.pending T (d + 1)) ∧
      ((∀ c ∈ cs, c ≠ HandlerCall.reset false) →
        (rLockerHandler.runCalls E T cs
          (rLockerHandler.Init E T ⟨rLockerHandler.ctor, rLocker.pending T d⟩).st).st.L
            = rLocker.pending T (d + (rLockerHandler.runCalls E T cs
                (rLockerHandler.Init E T
                  ⟨rLockerHandler.ctor, rLocker.pending T d⟩).st).st.H.Locked_.toNat) ∧
        ((rLockerHandler.runCalls E T cs
            (rLockerHandler.Init E T
              ⟨rLockerHandler.ctor, rLocker.pending T d⟩).st).st.H.Locked_ = true ↔
          (rLockerHandler.runCalls E T cs
            (rLockerHandler.Init E T
              ⟨rLockerHandler.ctor, rLocker.pending T d⟩).st).st.L.Counter_ = d + 1) ∧
        ((rLockerHandler.runCalls E T cs
            (rLockerHandler.Init E T
              ⟨rLockerHandler.ctor, rLocker.pending T d⟩).st).st.H.Locked_ = false ↔
          (rLockerHandler.runCalls E T cs
            (rLockerHandler.Init E T
              ⟨rLockerHandler.ctor, rLocker.pending T d⟩).st).st.L.Counter_ = d) ∧
        (rLockerHandler.reset E T true (rLockerHandler.runCalls E T cs
          (rLockerHandler.Init E T ⟨rLockerHandler.ctor, rLocker.pending T d⟩).st).st).res
            = .ok () ∧
        (rLockerHandler.reset E T true (rLockerHandler.runCalls E T cs
          (rLockerHandler.Init E T ⟨rLockerHandler.ctor, rLocker.pending T d⟩).st).st).st
            = ⟨⟨false, false⟩, rLocker.pending T d⟩) ∧
      ((rLockerHandler.Unlock E T g).res = .ok () →
        (rLockerHandler.Unlock E T g).st.H.Locked_ = false) ∧
      ((rLockerHandler.reset E T P g).res = .ok () →
        (rLockerHandler.reset E T P g).st.H.Locked_ = false) ∧
      rLockerHandler.reset E T false g = ⟨.ok (), ⟨⟨false, false⟩, g.L⟩, []⟩ := by
  obtain ⟨i1, i2⟩ := rLockerHandler_Init_fresh E T hT d hd
  obtain ⟨q, p, k, c1, c2, c3, r1, r2⟩ :=
    rLockerHandler_runCalls_inv E T hT d hd cs true true false (by simp) (by simp)
  simp only [Bool.toNat_true, Bool.toNat_false, Nat.add_zero] at r1 r2
  rw [i2, r2]
  refine ⟨i1, r1, ?_, ?_, ?_, rLockerHandler_Unlock_ok_flag E T g, ?_,
    rLockerHandler_reset_false_eq E T g⟩
  · intro hp
    simp only at hp
    subst hp
    obtain ⟨_, hk⟩ := c1 rfl
    subst hk
    simp
  · cases p with
    | true =>
      obtain ⟨_, hk⟩ := c1 rfl
      subst hk
      right
      simp
    | false =>
      cases k with
      | true => right; simp
      | false => left; simp
  · intro hall
    have hk : k = false := c3 hall rfl
    subst hk
    simp only [Bool.toNat_false, Nat.add_zero, rLocker_pending_Counter]
    refine ⟨trivial, ?_, ?_, ?_⟩
    · cases p <;> simp
    · cases p <;> simp
    · cases p with
      | true =>
        obtain ⟨hq1, _⟩ := c1 rfl
        subst hq1
        exact rLockerHandler_reset_any E T d hd true
      | false =>
        simp [rLockerHandler_reset_idle_eq]
  · intro h
    rw [rLockerHandler_reset_ok_flag E T P g h]

theorem rLockerHandler_Locked_accurate_witness :
    (rLockerHandler.runCalls Env.u32 7 [.Unlock, .Unlock, .Lock, .reset true, .Lock]
        (rLockerHandler.Init Env.u32 7 ⟨rLockerHandler.ctor, rLocker.pending 7 2⟩).st).res
          = .ok () ∧
      ((rLockerHandler.runCalls Env.u32 7 [.Unlock, .Unlock, .Lock, .reset true, .Lock]
          (rLockerHandler.Init Env.u32 7
            ⟨rLockerHandler.ctor, rLocker.pending 7 2⟩).st).st.H.Locked_ = false ↔
        (rLockerHandler.runCalls Env.u32 7 [.Unlock, .Unlock, .Lock, .reset true, .Lock]
          (rLockerHandler.Init Env.u32 7
            ⟨rLockerHandler.ctor, rLocker.pending 7 2⟩).st).st.L.Counter_ = 2) :=
  have h := rLockerHandler_Locked_accurate Env.u32 7 2
    [.Unlock, .Unlock, .Lock, .reset true, .Lock]
    ⟨rLockerHandler.ctor, rLocker.free⟩ true (by decide) (by decide)
  ⟨h.2.1, (h.2.2.2.2.1 (by decide)).2.2.1⟩

/-- Claim C16 fails as stated. Thread 7 initialises a locker, binds a handler
to it with `Init` and calls `reset( false )` on the handler. Every call
returns. `Locked_` is then false while the locker still holds the lock the
handler took: counter at one, owner 7, `IsLocked` true. The destructor that
follows releases nothing. -/
theorem rLockerHandler_reset_false_forgets :
    (rLocker.Init rLocker.ctor).res = .ok () ∧
      (rLockerHandler.Init Env.u32 7
        ⟨rLockerHandler.ctor, (rLocker.Init rLocker.ctor).st⟩).res = .ok () ∧
      (rLockerHandler.runCalls Env.u32 7 [.reset false]
        (rLockerHandler.Init Env.u32 7
          ⟨rLockerHandler.ctor, (rLocker.Init rLocker.ctor).st⟩).st).res = .ok () ∧
      (rLockerHandler.runCalls Env.u32 7 [.reset false]
        (rLockerHandler.Init Env.u32 7
          ⟨rLockerHandler.ctor, (rLocker.Init rLocker.ctor).st⟩).st).st.H.Locked_ = false ∧
      (rLockerHandler.runCalls Env.u32 7 [.reset false]
        (rLockerHandler.Init Env.u32 7
          ⟨rLockerHandler.ctor, (rLocker.Init rLocker.ctor).st⟩).st).st.L
            = ⟨⟨some ⟨true⟩, 7⟩, 1⟩ ∧
      (rLocker.IsLocked (rLockerHandler.runCalls Env.u32 7 [.reset false]
        (rLockerHandler.Init Env.u32 7
          ⟨rLockerHandler.ctor, (rLocker.Init rLocker.ctor).st⟩).st).st.L).res = .ok true ∧
      (rLockerHandler.reset Env.u32 7 true (rLockerHandler.runCalls Env.u32 7 [.reset false]
        (rLockerHandler.Init Env.u32 7
          ⟨rLockerHandler.ctor, (rLocker.Init rLocker.ctor).st⟩).st).st).st.L
            = ⟨⟨some ⟨true⟩, 7⟩, 1⟩ := by
  decide

/-! ## Two threads on one locker -/

theorem rLocker_Lock_eq_LockAcquire (E : Env) (T : sTID) (l : rLocker)
    (h : l.Core_.ThreadID ≠ T) : rLocker.Lock E T l = rLocker.LockAcquire E T l := by
  simp [rLocker.Lock, rLocker.LockAcquire, h]

theorem rLocker_LockAcquire_held (E : Env) (T1 T2 : sTID) (k : Nat) :
    rLocker.LockAcquire E T2 (rLocker.held T1 k) = ⟨.blocked, rLocker.held T1 k, [.Lock]⟩ := by
  simp [rLocker.LockAcquire, rLocker.held, rLocker.onCore, rCore_.Lock, rCore_.Test_,
    rCore_.onMutex, mtx.Lock, Step.bind, Step.ret, Step.lift]

theorem rLocker_LockAcquire_free (E : Env) (T : sTID) :
    rLocker.LockAcquire E T rLocker.free = ⟨.ok (), rLocker.held T 1, [.Lock]⟩ := by
  have hp := CounterMax_pos E
  have hne : (0 : Nat) ≠ CounterMax_ E := by omega
  have h1 : 1 % 2 ^ E.w = 1 := Nat.mod_eq_of_lt (by have := two_le_pow_w E; omega)
  simp [rLocker.LockAcquire, rLocker.free, rLocker.held, rLocker.onCore, rCore_.Lock,
    rCore_.Test_, rCore_.onMutex, mtx.Lock, Step.bind, Step.lift, Step.ret, Step.raise, hne, h1]

theorem rLocker_pending_pos (T : sTID) (k : Nat) (h : 0 < k) :
    rLocker.pending T k = rLocker.held T k := by
  have : k ≠ 0 := by omega
  simp [rLocker.pending, this]

/-- Claim C17. Thread `T1` holds an `rLocker` after `n` locks, `n` at least
one. As long as `T1` holds it (`k` pending locks, from one to `n`, which is the
state after `n - k` unlocks), a `Lock` called by another thread `T2` makes one
call, the acquisition of a mutex that is locked, and is suspended there with
the locker unchanged; a call suspended there and tried again is suspended
again. After the `n`-th `Unlock` of `T1` the locker is free, and the rest of
the suspended `Lock` of `T2` returns: one acquisition, `T2` the owner, the
counter at one. -/
theorem rLocker_mutual_exclusion (E : Env) (T1 T2 : sTID) (n k : Nat)
    (h1 : T1 ≠ Undefined) (h12 : T1 ≠ T2) (hk : 0 < k) (hkn : k ≤ n)
    (hn : n ≤ CounterMax_ E) :
    ((rLocker.run E T1 (List.replicate n .Lock) rLocker.free).res = .ok () ∧
      (rLocker.run E T1 (List.replicate n .Lock) rLocker.free).st = rLocker.held T1 n) ∧
    ((rLocker.run E T1 (List.replicate (n - k) .Unlock) (rLocker.held T1 n)).res = .ok () ∧
      (rLocker.run E T1 (List.replicate (n - k) .Unlock) (rLocker.held T1 n)).st
        = rLocker.held T1 k) ∧
    (rLocker.Lock E T2 (rLocker.held T1 k) = ⟨.blocked, rLocker.held T1 k, [.Lock]⟩ ∧
      rLocker.LockAcquire E T2 (rLocker.held T1 k)
        = ⟨.blocked, rLocker.held T1 k, [.Lock]⟩) ∧
    ((rLocker.run E T1 (List.replicate n .Unlock) (rLocker.held T1 n)).res = .ok () ∧
      (rLocker.run E T1 (List.replicate n .Unlock) (rLocker.held T1 n)).st
        = ⟨⟨some ⟨false⟩, Undefined⟩, 0⟩) ∧
    (rLocker.LockAcquire E T2 ⟨⟨some ⟨false⟩, Undefined⟩, 0⟩
        = ⟨.ok (), ⟨⟨some ⟨true⟩, T2⟩, 1⟩, [.Lock]⟩) := by
  have hn0 : 0 < n := by omega
  have hl := rLocker_run_locks E T1 h1 n 0 (by omega)
  have hu1 := rLocker_run_unlocks E T1 (n - k) n (by omega) hn
  have hu2 := rLocker_run_unlocks E T1 n n le_rfl hn
  have e1 : n - (n - k) = k := by omega
  simp only [Nat.zero_add, Nat.sub_self, e1] at hl hu1 hu2
  rw [rLocker_pending_pos T1 n hn0] at hl hu1 hu2
  rw [rLocker_pending_pos T1 k hk] at hu1
  have hf : rLocker.pending T1 0 = rLocker.free := by simp [rLocker.pending]
  rw [hf] at hl hu2
  refine ⟨hl, hu1, ⟨?_, rLocker_LockAcquire_held E T1 T2 k⟩, hu2, ?_⟩
  · rw [rLocker_Lock_eq_LockAcquire E T2 (rLocker.held T1 k) h12]
    exact rLocker_LockAcquire_held E T1 T2 k
  · exact rLocker_LockAcquire_free E T2

theorem rLocker_mutual_exclusion_witness :
    rLocker.Lock Env.u32 8 (rLocker.held 7 2) = ⟨.blocked, rLocker.held 7 2, [.Lock]⟩ ∧
      (rLocker.run Env.u32 7 (List.replicate 3 .Unlock) (rLocker.held 7 3)).st
        = ⟨⟨some ⟨false⟩, Undefined⟩, 0⟩ ∧
      rLocker.LockAcquire Env.u32 8 ⟨⟨some ⟨false⟩, Undefined⟩, 0⟩
        = ⟨.ok (), ⟨⟨some ⟨true⟩, 8⟩, 1⟩, [.Lock]⟩ :=
  have h := rLocker_mutual_exclusion Env.u32 7 8 3 2 (by decide) (by decide) (by decide)
    (by decide) (by decide)
  ⟨h.2.2.1.1, h.2.2.2.1.2, h.2.2.2.2⟩

/-- Without the invariant the branch is taken: a locker that records owner 7
while its mutex is not locked lets thread 8 acquire the mutex, and `Lock`
then raises `qRFwk`. -/
theorem rLocker_Lock_second_owner (E : Env) :
    rLocker.Lock E 8 ⟨⟨some ⟨false⟩, 7⟩, 1⟩
      = ⟨.raised .Fwk, ⟨⟨some ⟨true⟩, 7⟩, 1⟩, [.Lock]⟩ ∧
    ¬ rLocker.LockInv ⟨⟨some ⟨false⟩, 7⟩, 1⟩ := by
  constructor
  · simp [rLocker.Lock, rLocker.onCore, rCore_.Lock, rCore_.Test_, rCore_.onMutex, mtx.Lock,
      Step.bind, Step.lift, Step.ret, Step.raise, Undefined]
  · simp [rLocker.LockInv, Undefined]

/-- Claim C18. In a state of the `rLocker` that satisfies the invariant (a
recorded owner implies a locked mutex; the counter is positive exactly when an
owner is recorded), for a caller `T` that is not the recorded owner: when the
acquisition `Core_.Lock()` returns, the recorded owner is `Undefined`, so the
branch of `Lock` that raises `qRFwk` after the acquisition is not taken. The
only `qRFwk` that `Lock` can still raise is the one of `Test_` on an undefined
handler, before any call to the mutex library. -/
theorem rLocker_Lock_owner_branch (E : Env) (T : sTID) (l : rLocker)
    (hinv : rLocker.LockInv l) (hT : l.Core_.ThreadID ≠ T) :
    ((rLocker.onCore rCore_.Lock l).res = .ok () →
        (rLocker.onCore rCore_.Lock l).st.Core_.ThreadID = Undefined) ∧
      ((rLocker.Lock E T l).res = .raised .Fwk →
        l.Core_.Mutex_ = none ∧ (rLocker.Lock E T l).calls = []) ∧
      (l.Core_.Mutex_ ≠ none → ∀ e, (rLocker.Lock E T l).res ≠ .raised e) := by
  rcases l with ⟨⟨m, t⟩, n⟩
  obtain ⟨i1, i2⟩ := hinv
  simp only at i1 i2 hT
  rcases m with _ | ⟨⟨_ | _⟩⟩
  · simp [rLocker.Lock, rLocker.onCore, rCore_.Lock, rCore_.Test_, Step.bind, Step.lift,
      Step.raise, hT]
  · have ht : t = Undefined := by
      by_contra hne
      have := i1 hne
      simp at this
    subst ht
    have hn : n = 0 := by
      by_contra hc
      exact (i2.mp (by omega)) rfl
    subst hn
    have hp := CounterMax_pos E
    have hne : (0 : Nat) ≠ CounterMax_ E := by omega
    simp [rLocker.Lock, rLocker.onCore, rCore_.Lock, rCore_.Test_, rCore_.onMutex, mtx.Lock,
      Step.bind, Step.lift, Step.ret, Step.raise, hT, hne]
  · simp [rLocker.Lock, rLocker.onCore, rCore_.Lock, rCore_.Test_, rCore_.onMutex, mtx.Lock,
      Step.bind, Step.lift, Step.ret, Step.raise, hT]

theorem rLocker_Lock_owner_branch_witness :
    rLocker.LockInv rLocker.free ∧
      ((rLocker.onCore rCore_.Lock rLocker.free).res = .ok () →
        (rLocker.onCore rCore_.Lock rLocker.free).st.Core_.ThreadID = Undefined) ∧
      (rLocker.onCore rCore_.Lock rLocker.free).res = .ok () :=
  ⟨by decide,
    (rLocker_Lock_owner_branch Env.u32 7 rLocker.free (by decide) (by decide)).1,
    by decide⟩

/-! ## An `Unblock` that comes before the `Wait` -/

theorem rBlocker_Wait_released (E : Env) (A : sTID) (hA : A ≠ Undefined) (ig : Bool) :
    rBlocker.Wait E A ig (rBlocker.released A)
      = ⟨.ok (), rBlocker.unarmed,
          [(.gate, .Lock), (.gate, .Unlock), (.signal, .Lock), (.gate, .Lock),
            (.signal, .Unlock), (.gate, .Unlock)]⟩ := by
  have harm : rBlocker.WaitArm E A ig ⟨rLockerHandler.ctor, rBlocker.released A⟩
      = ⟨.ok (), ⟨⟨true, false⟩, rBlocker.released A⟩,
          [(.gate, .Lock), (.gate, .Unlock)]⟩ := by
    simp [rBlocker.WaitArm, rBlocker.onHandler, rBlocker.released,
      rLockerHandler_Init_eq E A hA, rLockerHandler_Unlock_eq, hA,
      Step.bind, Step.ret, Step.raise, Step.lift]
  simp only [rBlocker.Wait, harm]
  simp [rBlocker.WaitResume, rBlocker.scopeExit, rBlocker.onHandler,
    rBlocker.inFrame, rBlocker.onCore, rBlocker.released, rBlocker.unarmed,
    rLockerHandler_Lock_eq E A hA, rLockerHandler_reset_held_eq,
    rCore_.Lock, rCore_.Unlock, rCore_.Test_, rCore_.onMutex, mtx.Lock, mtx.Unlock,
    Step.bind, Step.ret, Step.raise, Step.lift, Step.atExit]

/-- Claim C19. Thread `A` initialises a blocker with `SkipPrefetching` false
and another thread `B` calls `Unblock` before `A` calls `Wait`: the `Unblock`
returns, and the `Wait` of `A` then returns without error and without being
suspended; it makes one acquisition of the mutex of `Core_`, which it finds
not locked, and one release, and leaves the state UNARMED with the locker
`Locker_` free. With `SkipPrefetching` true, the `Unblock` that comes first
returns, makes no call on the mutex of `Core_` and leaves the blocker as it
was; the `Wait` of `A` then locks the mutex of `Core_` itself and is suspended
at its second acquisition of that mutex. -/
theorem rBlocker_prearmed_wakeup (E : Env) (A B : sTID) (igA igB : Bool) (b0 : rBlocker)
    (hA : A ≠ Undefined) (hB : B ≠ Undefined) (hAB : A ≠ B) :
    ((rBlocker.Init A false b0).res = .ok () ∧
      (rBlocker.Unblock E B igB (rBlocker.Init A false b0).st).res = .ok () ∧
      rBlocker.Wait E A igA (rBlocker.Unblock E B igB (rBlocker.Init A false b0).st).st
        = ⟨.ok (), ⟨⟨⟨some ⟨false⟩, Undefined⟩, 0⟩, ⟨some ⟨false⟩, Undefined⟩⟩,
            [(.gate, .Lock), (.gate, .Unlock), (.signal, .Lock), (.gate, .Lock),
              (.signal, .Unlock), (.gate, .Unlock)]⟩) ∧
    ((rBlocker.Init A true b0).res = .ok () ∧
      rBlocker.Unblock E B igB (rBlocker.Init A true b0).st
        = ⟨.ok (), (rBlocker.Init A true b0).st, [(.gate, .Lock), (.gate, .Unlock)]⟩ ∧
      rBlocker.Wait E A igA (rBlocker.Unblock E B igB (rBlocker.Init A true b0).st).st
        = ⟨.blocked, ⟨⟨⟨some ⟨false⟩, Undefined⟩, 0⟩, ⟨some ⟨true⟩, A⟩⟩,
            [(.gate, .Lock), (.signal, .Lock), (.gate, .Unlock), (.signal, .Lock)]⟩) := by
  obtain ⟨i1, i2⟩ := rBlocker_Init_eq A false b0
  obtain ⟨j1, j2⟩ := rBlocker_Init_eq A true b0
  simp only [Bool.false_eq_true, if_false] at i2
  simp only [if_true] at j2
  have hu := rBlocker_Unblock_armed E A B hB igB (Or.inr hAB) hA
  have hw := rBlocker_Wait_released E A hA igA
  have hn := rBlocker_Unblock_none E B hB igB false
  have hx := rBlocker_Wait_unarmed E A hA igA
  refine ⟨⟨i1, ?_, ?_⟩, ⟨j1, ?_, ?_⟩⟩
  · rw [i2, hu]
  · rw [i2, hu, hw]
    rfl
  · rw [j2]
    exact hn
  · rw [j2]
    have e : (rBlocker.Unblock E B igB rBlocker.unarmed).st = rBlocker.unarmed := by
      show (rBlocker.Unblock E B igB ⟨rLocker.free, ⟨some ⟨false⟩, Undefined⟩⟩).st = _
      rw [hn]
      rfl
    rw [e, hx]
    rfl

theorem rBlocker_prearmed_wakeup_witness :
    rBlocker.Wait Env.u32 1 false
        (rBlocker.Unblock Env.u32 2 false (rBlocker.Init 1 false rBlocker.ctor).st).st
      = ⟨.ok (), ⟨⟨⟨some ⟨false⟩, Undefined⟩, 0⟩, ⟨some ⟨false⟩, Undefined⟩⟩,
          [(.gate, .Lock), (.gate, .Unlock), (.signal, .Lock), (.gate, .Lock),
            (.signal, .Unlock), (.gate, .Unlock)]⟩ :=
  (rBlocker_prearmed_wakeup Env.u32 1 2 false false rBlocker.ctor (by decide) (by decide)
    (by decide)).1.2.2

/-- Claim C20. On an initialised `rLocker` nobody holds (owner `Undefined`,
counter at zero, mutex not locked), an `Unlock` by a caller whose identifier
is `Undefined` is not rejected: it returns, makes no call to the mutex
library, leaves the mutex not locked and the owner `Undefined`, and the
counter goes from zero to `CounterMax_`, that is `2 ^ w - 1`. The predicate
"the counter is positive exactly when an owner is recorded" no longer holds.
A `Lock` by the same caller then raises the limit error `qRLmt`. -/
theorem rLocker_Unlock_sentinel (E : Env) :
    Undefined = 0 ∧
      rLocker.Unlock E Undefined ⟨⟨some ⟨false⟩, Undefined⟩, 0⟩
        = ⟨.ok (), ⟨⟨some ⟨false⟩, Undefined⟩, CounterMax_ E⟩, []⟩ ∧
      CounterMax_ E = (0 + 2 ^ E.w - 1) % 2 ^ E.w ∧
      ¬ rLocker.CounterInv E (rLocker.Unlock E Undefined ⟨⟨some ⟨false⟩, Undefined⟩, 0⟩).st ∧
      rLocker.Lock E Undefined
          (rLocker.Unlock E Undefined ⟨⟨some ⟨false⟩, Undefined⟩, 0⟩).st
        = ⟨.raised .Lmt, ⟨⟨some ⟨false⟩, Undefined⟩, CounterMax_ E⟩, []⟩ := by
  have hp := CounterMax_pos E
  have hs := CounterMax_succ E
  have hm : (0 + 2 ^ E.w - 1) % 2 ^ E.w = CounterMax_ E := by
    rw [Nat.zero_add]
    exact Nat.mod_eq_of_lt (by have := two_le_pow_w E; omega)
  have hne : CounterMax_ E ≠ 0 := by omega
  have hu : rLocker.Unlock E Undefined ⟨⟨some ⟨false⟩, Undefined⟩, 0⟩
      = ⟨.ok (), ⟨⟨some ⟨false⟩, Undefined⟩, CounterMax_ E⟩, []⟩ := by
    simp only [rLocker.Unlock, if_true, Step.bind, Step.ret, hm, hne, if_false,
      List.append_nil]
  refine ⟨rfl, hu, hm.symm, ?_, ?_⟩
  · rw [hu]
    simp [rLocker.CounterInv, hp]
  · rw [hu]
    simp [rLocker.Lock, Step.bind, Step.ret, Step.raise]

end tht
